import Mathlib

/-!
Verification development for the CorridorOS core: the Free-Form Memory QoS
allocation ledger ("memqosd") and the HELIOPASS photonic corridor calibration
loop.  The HELIOPASS simulator is embedded from the Go source
(`HELIOPASSSimulator` and its methods); Go `float64` arithmetic is modelled
over `ℚ`, and the two external effects of the source — the global `math/rand`
stream and the transcendental library calls `math.Exp` / `math.Sin` — are
supplied by an explicit `Env` so that every run of the embedded code is a
function of the request and that environment.  The allocation ledger is not
implemented in the repository (the daemon source is a skeleton whose handler
returns a hard-coded reply, with the allocation, bandwidth, telemetry and
migration logic left as TODO comments), so it is modelled from the spec, as
marked on each of its definitions.
-/

set_option maxRecDepth 100000
set_option maxHeartbeats 1000000

namespace Corridor

/-- Modelled from the spec: a memory tier catalog entry — byte capacity and
bandwidth ceiling (GB/s) of one of the four tiers T0..T3 (spec sections 2, 3).
The daemon that would own this data, memqosd, exists only as a skeleton in the
repository. -/
structure TierSpec where
  capacityBytes : ℕ
  bandwidthCeilingGBs : ℕ
deriving DecidableEq

/-- Modelled from the spec: one granted memory region, with the fields the
claims exercise — identity, size, resident tier, and bandwidth floor
(spec section 3, "Allocation"). -/
structure Allocation where
  id : ℕ
  bytes : ℕ
  tier : Fin 4
  bandwidthFloorGBs : ℕ
deriving DecidableEq

/-- Modelled from the spec: the AllocationLedger — the authoritative table of
outstanding grants, together with the immutable tier catalog and a fresh-id
counter (spec section 4.1). -/
structure Ledger where
  catalog : Fin 4 → TierSpec
  allocs : List Allocation
  nextId : ℕ

/-- Modelled from the spec: the error taxonomy of the memory API
(spec section 7). -/
inductive FFMError where
  | CAPACITY_EXCEEDED
  | BANDWIDTH_INFEASIBLE
  | NOT_FOUND
  | MIGRATION_IN_PROGRESS
deriving DecidableEq

/-- Bytes of the allocations of a list that are resident in tier `t`. -/
def sumBytesTier (l : List Allocation) (t : Fin 4) : ℕ :=
  ((l.filter (fun a => a.tier == t)).map (fun a => a.bytes)).sum

/-- Bandwidth floors of the allocations of a list resident in tier `t`. -/
def sumFloorTier (l : List Allocation) (t : Fin 4) : ℕ :=
  ((l.filter (fun a => a.tier == t)).map (fun a => a.bandwidthFloorGBs)).sum

/-- Bytes of all allocations resident in tier `t`. -/
def usedBytes (L : Ledger) (t : Fin 4) : ℕ :=
  sumBytesTier L.allocs t

/-- Sum of the bandwidth floors of all allocations resident in tier `t`. -/
def committedFloor (L : Ledger) (t : Fin 4) : ℕ :=
  sumFloorTier L.allocs t

/-- Modelled from the spec: `Allocate` — fails `CAPACITY_EXCEEDED` when the
size exceeds the tier's remaining free bytes, `BANDWIDTH_INFEASIBLE` when the
floor would push the tier's committed floors past its bandwidth ceiling;
otherwise records the grant under a fresh id (spec sections 4.1, 6, 7). -/
def Allocate (L : Ledger) (bytes : ℕ) (tier : Fin 4) (bwFloor : ℕ) :
    Except FFMError (Ledger × ℕ) :=
  if (L.catalog tier).capacityBytes < usedBytes L tier + bytes then
    .error .CAPACITY_EXCEEDED
  else if (L.catalog tier).bandwidthCeilingGBs < committedFloor L tier + bwFloor then
    .error .BANDWIDTH_INFEASIBLE
  else
    .ok ({ L with
            allocs := ⟨L.nextId, bytes, tier, bwFloor⟩ :: L.allocs,
            nextId := L.nextId + 1 },
         L.nextId)

/-- Look up an allocation by id. -/
def findAlloc (L : Ledger) (id : ℕ) : Option Allocation :=
  L.allocs.find? (fun a => a.id == id)

/-- Modelled from the spec: `Release` — frees capacity and committed bandwidth
immediately; releasing an unknown (or already released) id is a `NOT_FOUND`
error, not silently ignored (spec sections 4.1, 8 "Idempotence"). -/
def Release (L : Ledger) (id : ℕ) : Except FFMError Ledger :=
  match findAlloc L id with
  | none => .error .NOT_FOUND
  | some _ => .ok { L with allocs := L.allocs.filter (fun a => a.id != id) }

/-- Modelled from the spec: `AdjustBandwidthFloor` — re-runs the admission
check excluding the allocation's own prior floor (spec sections 4.1, 6). -/
def AdjustBandwidthFloor (L : Ledger) (id : ℕ) (newFloor : ℕ) :
    Except FFMError Ledger :=
  match findAlloc L id with
  | none => .error .NOT_FOUND
  | some a =>
    if (L.catalog a.tier).bandwidthCeilingGBs
        < committedFloor L a.tier - a.bandwidthFloorGBs + newFloor then
      .error .BANDWIDTH_INFEASIBLE
    else
      .ok { L with
              allocs := L.allocs.map (fun b =>
                if b.id == id then { b with bandwidthFloorGBs := newFloor } else b) }

/-- Modelled from the spec: `RequestTierMigration` — reserves capacity and
bandwidth budget in the destination tier via the same admission check before
flipping the tier field (reserve-then-release, spec sections 4.3, 6); the
single-writer model has no overlapping migrations, so `MIGRATION_IN_PROGRESS`
does not arise here. -/
def RequestTierMigration (L : Ledger) (id : ℕ) (target : Fin 4) :
    Except FFMError Ledger :=
  match findAlloc L id with
  | none => .error .NOT_FOUND
  | some a =>
    if (L.catalog target).capacityBytes < usedBytes L target + a.bytes then
      .error .CAPACITY_EXCEEDED
    else if (L.catalog target).bandwidthCeilingGBs
        < committedFloor L target + a.bandwidthFloorGBs then
      .error .BANDWIDTH_INFEASIBLE
    else
      .ok { L with
              allocs := L.allocs.map (fun b =>
                if b.id == id then { b with tier := target } else b) }

/-- Observable ledger state immediately after an `Allocate` call: the updated
ledger on success, the unchanged ledger when the call fails. -/
def afterAllocate (L : Ledger) (bytes : ℕ) (tier : Fin 4) (bwFloor : ℕ) : Ledger :=
  match Allocate L bytes tier bwFloor with
  | .ok (L', _) => L'
  | .error _ => L

/-- Observable ledger state immediately after a `Release` call. -/
def afterRelease (L : Ledger) (id : ℕ) : Ledger :=
  match Release L id with
  | .ok L' => L'
  | .error _ => L

/-- Observable ledger state immediately after an `AdjustBandwidthFloor` call. -/
def afterAdjust (L : Ledger) (id : ℕ) (newFloor : ℕ) : Ledger :=
  match AdjustBandwidthFloor L id newFloor with
  | .ok L' => L'
  | .error _ => L

/-- Observable ledger state immediately after a `RequestTierMigration` call. -/
def afterMigration (L : Ledger) (id : ℕ) (target : Fin 4) : Ledger :=
  match RequestTierMigration L id target with
  | .ok L' => L'
  | .error _ => L

/-- The central bandwidth-conservation invariant: in every tier, the committed
bandwidth floors sum to at most the tier's bandwidth ceiling. -/
def bwInv (L : Ledger) : Prop :=
  ∀ t : Fin 4, committedFloor L t ≤ (L.catalog t).bandwidthCeilingGBs

/-- Capacity invariant: no tier holds more bytes than its capacity. -/
def capInv (L : Ledger) : Prop :=
  ∀ t : Fin 4, usedBytes L t ≤ (L.catalog t).capacityBytes

/-- Ledger well-formedness: allocation ids are pairwise distinct and below the
fresh-id counter, the capacity invariant holds, and the bandwidth-conservation
invariant holds. -/
def LedgerWF (L : Ledger) : Prop :=
  (L.allocs.map (fun a => a.id)).Nodup ∧
  (∀ a ∈ L.allocs, a.id < L.nextId) ∧
  capInv L ∧ bwInv L

instance (L : Ledger) : Decidable (bwInv L) := by unfold bwInv; infer_instance
instance (L : Ledger) : Decidable (capInv L) := by unfold capInv; infer_instance
instance (L : Ledger) : Decidable (LedgerWF L) := by unfold LedgerWF; infer_instance

/-- An empty ledger over a given tier catalog. -/
def emptyLedger (catalog : Fin 4 → TierSpec) : Ledger :=
  { catalog := catalog, allocs := [], nextId := 0 }

/-!
HELIOPASS calibration simulator, embedded from the Go source (the
`HELIOPASSSimulator` service).  Go `float64` values are modelled as `ℚ`.
The source draws noise from the global `math/rand` stream and calls
`math.Exp` / `math.Sin`; an `Env` supplies those three external functions,
and every embedded function that draws randomness threads the index of the
next unconsumed draw, exactly as the single global generator does in Go.
-/

/-- The environment of a simulation run: `rand k` is the k-th value produced
by the global `rand.Float64()` stream (a value in [0,1) in Go), and `expQ` /
`sinQ` model the `float64` library functions `math.Exp` / `math.Sin`. -/
structure Env where
  rand : ℕ → ℚ
  expQ : ℚ → ℚ
  sinQ : ℚ → ℚ

/-- From `AmbientProfile` in the Go source. -/
structure AmbientProfile where
  name : String
  temperature : ℚ
  humidity : ℚ
  vibrationRMS : ℚ
  emiNoise : ℚ
  driftRate : ℚ
  stabilityClass : String
  noiseLevel : ℚ
deriving DecidableEq

/-- From `HELIOPASSSimulator` in the Go source (simulation parameters). -/
structure HELIOPASSSimulator where
  baseTemperature : ℚ
  baseHumidity : ℚ
  baseVibration : ℚ
  baseEMI : ℚ
  driftRate : ℚ
  noiseLevel : ℚ
  convergenceRate : ℚ
  maxIterations : ℕ
deriving DecidableEq

/-- From `NewHELIOPASSSimulator` in the Go source. -/
def NewHELIOPASSSimulator : HELIOPASSSimulator :=
  { baseTemperature := 22.0
    baseHumidity := 45.0
    baseVibration := 0.1
    baseEMI := -80.0
    driftRate := 0.001
    noiseLevel := 0.1
    convergenceRate := 0.8
    maxIterations := 50 }

/-- From `SimulationRequest` in the Go source.  `LambdaCount` and `Duration`
are Go `int` fields, so they can be negative in a decoded request; they are
modelled as `ℤ`. -/
structure SimulationRequest where
  corridorID : String
  targetBER : ℚ
  ambientProfile : String
  lambdaCount : ℤ
  initialBER : ℚ
  initialEyeMargin : ℚ
  temperature : ℚ
  duration : ℤ
deriving DecidableEq

/-- From `SimulationResponse` in the Go source; the three per-time profiles
are kept as (time, value) pairs. -/
structure SimulationResponse where
  corridorID : String
  status : String
  converged : Bool
  finalBER : ℚ
  finalEyeMargin : ℚ
  convergenceTime : ℚ
  iterations : ℕ
  biasVoltages : List ℚ
  lambdaShifts : List ℚ
  laserPowerAdjust : List ℚ
  powerSavings : ℚ
  temperatureProfile : List (ℚ × ℚ)
  berProfile : List (ℚ × ℚ)
  eyeMarginProfile : List (ℚ × ℚ)
deriving DecidableEq

/-- From `GetAmbientProfiles` in the Go source: the map of known ambient
profiles, as a lookup on the profile key. -/
def GetAmbientProfiles : String → Option AmbientProfile
  | "lab_default" =>
      some ⟨"Laboratory Default", 22.0, 45.0, 0.1, -80.0, 0.001, "excellent", 0.05⟩
  | "field_noise_low" =>
      some ⟨"Field Low Noise", 25.0, 60.0, 1.0, -70.0, 0.01, "good", 0.1⟩
  | "field_noise_high" =>
      some ⟨"Field High Noise", 30.0, 80.0, 5.0, -60.0, 0.1, "fair", 0.2⟩
  | "datacenter" =>
      some ⟨"Data Center", 24.0, 50.0, 0.5, -75.0, 0.005, "excellent", 0.08⟩
  | "space_sim" =>
      some ⟨"Space Simulation", -50.0, 0.0, 0.01, -90.0, 0.0001, "excellent", 0.01⟩
  | _ => none

/-- From `simulateTemperatureNoise`; returns the value and the next unconsumed
rand index. -/
def simulateTemperatureNoise (env : Env) (time : ℚ) (profile : AmbientProfile)
    (k : ℕ) : ℚ × ℕ :=
  let drift := env.sinQ (time * 0.1) * 0.5
  let noise := (env.rand k - 0.5) * profile.noiseLevel * 2
  (drift + noise, k + 1)

/-- From `calculateImprovement`. -/
def calculateImprovement (h : HELIOPASSSimulator) (env : Env) (iteration : ℕ)
    (noiseLevel : ℚ) (k : ℕ) : ℚ × ℕ :=
  let baseImprovement := env.expQ (-(iteration : ℚ) * h.convergenceRate)
  let noise := (env.rand k - 0.5) * noiseLevel
  (baseImprovement + noise, k + 1)

/-- From `calculateBERNoise`. -/
def calculateBERNoise (env : Env) (time : ℚ) (profile : AmbientProfile)
    (k : ℕ) : ℚ × ℕ :=
  let baseNoise := profile.noiseLevel * 1e-12
  let timeNoise := env.sinQ (time * 0.5) * baseNoise * 0.5
  let randomNoise := (env.rand k - 0.5) * baseNoise
  (timeNoise + randomNoise, k + 1)

/-- From `calculateEyeImprovement`. -/
def calculateEyeImprovement (h : HELIOPASSSimulator) (env : Env) (iteration : ℕ)
    (noiseLevel : ℚ) (k : ℕ) : ℚ × ℕ :=
  let baseImprovement := env.expQ (-(iteration : ℚ) * h.convergenceRate * 0.8)
  let noise := (env.rand k - 0.5) * noiseLevel * 0.1
  (baseImprovement + noise, k + 1)

/-- From `calculateEyeNoise`. -/
def calculateEyeNoise (env : Env) (time : ℚ) (profile : AmbientProfile)
    (k : ℕ) : ℚ × ℕ :=
  let baseNoise := profile.noiseLevel * 0.01
  let timeNoise := env.sinQ (time * 0.3) * baseNoise * 0.5
  let randomNoise := (env.rand k - 0.5) * baseNoise
  (timeNoise + randomNoise, k + 1)

/-- From `updateBiasVoltages`: per-lane multiplicative temperature and drift
compensation, a random adjustment, then a clamp to the valid device range
[0.8, 1.5]. -/
def updateBiasVoltages (h : HELIOPASSSimulator) (env : Env) (time : ℚ)
    (profile : AmbientProfile) : List ℚ → ℕ → List ℚ × ℕ
  | [], k => ([], k)
  | v :: vs, k =>
    let tempFactor := 1.0 + (profile.temperature - h.baseTemperature) * 0.001
    let driftFactor := 1.0 + env.sinQ (time * 0.2) * profile.driftRate * 0.1
    let randomAdjust := (env.rand k - 0.5) * 0.01
    let v' := max 0.8 (min 1.5 (v * tempFactor * driftFactor + randomAdjust))
    let rest := updateBiasVoltages h env time profile vs (k + 1)
    (v' :: rest.1, rest.2)

/-- From `updateLambdaShifts`: additive drift and random adjustment, clamped
to the trim band [-0.1, 0.1]. -/
def updateLambdaShifts (env : Env) (time : ℚ) (profile : AmbientProfile) :
    List ℚ → ℕ → List ℚ × ℕ
  | [], k => ([], k)
  | s :: ss, k =>
    let drift := env.sinQ (time * 0.15) * profile.driftRate * 0.01
    let randomAdjust := (env.rand k - 0.5) * 0.001
    let s' := max (-0.1) (min 0.1 (s + drift + randomAdjust))
    let rest := updateLambdaShifts env time profile ss (k + 1)
    (s' :: rest.1, rest.2)

/-- From `updateLaserPower`: multiplicative temperature compensation and a
random adjustment, clamped to [-2.0, 2.0] dB. -/
def updateLaserPower (h : HELIOPASSSimulator) (env : Env) (time : ℚ)
    (profile : AmbientProfile) : List ℚ → ℕ → List ℚ × ℕ
  | [], k => ([], k)
  | p :: ps, k =>
    let tempFactor := 1.0 + (profile.temperature - h.baseTemperature) * 0.0005
    let randomAdjust := (env.rand k - 0.5) * 0.1
    let p' := max (-2.0) (min 2.0 (p * tempFactor + randomAdjust))
    let rest := updateLaserPower h env time profile ps (k + 1)
    (p' :: rest.1, rest.2)

/-- From `calculatePowerSavings`: mean per-lane savings from lowered bias
voltages plus mean savings from negative laser-power adjustments, clamped to
[0, 20] percent. -/
def calculatePowerSavings (biasVoltages laserPowerAdjust : List ℚ) : ℚ :=
  let voltageSavings :=
    ((biasVoltages.map (fun v => (1.2 - v) * 10.0)).sum) / (biasVoltages.length : ℚ)
  let laserSavings :=
    ((laserPowerAdjust.map (fun p => if p < 0 then |p| * 5.0 else 0)).sum)
      / (laserPowerAdjust.length : ℚ)
  max 0 (min 20 (voltageSavings + laserSavings))

/-- From the vector-initialization loop in `Simulate` (one bias, shift and
power draw per lane, in source order). -/
def initLanes (env : Env) : ℕ → ℕ → (List ℚ × List ℚ × List ℚ) × ℕ
  | 0, k => (([], [], []), k)
  | n + 1, k =>
    let b := 1.2 + (env.rand k - 0.5) * 0.2
    let s := (env.rand (k + 1) - 0.5) * 0.02
    let p := (env.rand (k + 2) - 0.5) * 0.5
    let rest := initLanes env n (k + 3)
    ((b :: rest.1.1, s :: rest.1.2.1, p :: rest.1.2.2), rest.2)

/-- The mutable state of the `Simulate` loop body, plus the rand index `k`. -/
structure SimState where
  k : ℕ
  currentBER : ℚ
  currentEyeMargin : ℚ
  biasVoltages : List ℚ
  lambdaShifts : List ℚ
  laserPowerAdjust : List ℚ
  temperatureProfile : List (ℚ × ℚ)
  berProfile : List (ℚ × ℚ)
  eyeMarginProfile : List (ℚ × ℚ)
  iterations : ℕ
  converged : Bool
deriving DecidableEq

/-- One pass of the `for i := 0; i < h.MaxIterations; i++` body of `Simulate`:
measurement updates with clamping, per-lane corrections, and the convergence
check (`converged` records whether the body would break out of the loop). -/
def simIter (h : HELIOPASSSimulator) (env : Env) (profile : AmbientProfile)
    (targetBER dt : ℚ) (i : ℕ) (s : SimState) : SimState :=
  let time := (i : ℚ) * dt
  let tn := simulateTemperatureNoise env time profile s.k
  let temperature := profile.temperature + tn.1
  let imp := calculateImprovement h env i profile.noiseLevel tn.2
  let ber1 := targetBER + (s.currentBER - targetBER) * imp.1
  let bn := calculateBERNoise env time profile imp.2
  let currentBER := max (ber1 + bn.1) 1e-15
  let eyeImp := calculateEyeImprovement h env i profile.noiseLevel bn.2
  let eye1 := 0.8 + (s.currentEyeMargin - 0.8) * eyeImp.1
  let en := calculateEyeNoise env time profile eyeImp.2
  let currentEyeMargin := max 0.1 (min 1.5 (eye1 + en.1))
  let bv := updateBiasVoltages h env time profile s.biasVoltages en.2
  let ls := updateLambdaShifts env time profile s.lambdaShifts bv.2
  let lp := updateLaserPower h env time profile s.laserPowerAdjust ls.2
  { k := lp.2
    currentBER := currentBER
    currentEyeMargin := currentEyeMargin
    biasVoltages := bv.1
    lambdaShifts := ls.1
    laserPowerAdjust := lp.1
    temperatureProfile := s.temperatureProfile ++ [(time, temperature)]
    berProfile := s.berProfile ++ [(time, currentBER)]
    eyeMarginProfile := s.eyeMarginProfile ++ [(time, currentEyeMargin)]
    iterations := s.iterations + 1
    converged := decide (currentBER ≤ targetBER * 1.1 ∧ 0.7 ≤ currentEyeMargin) }

/-- The `Simulate` iteration loop: run body passes until the convergence check
breaks out or the fuel (`MaxIterations` remaining passes) is exhausted. -/
def simLoop (h : HELIOPASSSimulator) (env : Env) (profile : AmbientProfile)
    (targetBER dt : ℚ) : ℕ → ℕ → SimState → SimState
  | 0, _, s => s
  | fuel + 1, i, s =>
    let s' := simIter h env profile targetBER dt i s
    if s'.converged then s' else simLoop h env profile targetBER dt fuel (i + 1) s'

/-- From the default block of `Simulate`: zero-valued request fields receive
the enumerated defaults. -/
def applyDefaults (profile : AmbientProfile) (req : SimulationRequest) :
    SimulationRequest :=
  { req with
      lambdaCount := if req.lambdaCount = 0 then 8 else req.lambdaCount
      initialBER := if req.initialBER = 0 then 1e-9 else req.initialBER
      initialEyeMargin := if req.initialEyeMargin = 0 then 0.5 else req.initialEyeMargin
      temperature := if req.temperature = 0 then profile.temperature else req.temperature
      duration := if req.duration = 0 then 60 else req.duration }

/-- The three observable outcomes of one `Simulate` call in Go: a returned
response together with the new stream position, a returned error, or a
runtime panic. -/
inductive SimOutcome where
  | ok : SimulationResponse × ℕ → SimOutcome
  | error : String → SimOutcome
  | panic : SimOutcome
deriving DecidableEq

/-- The body of `Simulate` from the Go source after the profile lookup and
the lane-vector allocation check: set defaults, allocate and initialize the
lane vectors, run the loop, assemble the response.  `k0` is the index of the
next unconsumed draw of the global rand stream when the call starts; the
returned index is the stream position after the call, which a subsequent
call starts from. -/
def simulateRun (h : HELIOPASSSimulator) (env : Env) (k0 : ℕ)
    (req0 : SimulationRequest) (profile : AmbientProfile) :
    SimulationResponse × ℕ :=
    let req := applyDefaults profile req0
    let init := initLanes env req.lambdaCount.toNat k0
    let dt := (req.duration : ℚ) / (h.maxIterations : ℚ)
    let s0 : SimState :=
      { k := init.2
        currentBER := req.initialBER
        currentEyeMargin := req.initialEyeMargin
        biasVoltages := init.1.1
        lambdaShifts := init.1.2.1
        laserPowerAdjust := init.1.2.2
        temperatureProfile := []
        berProfile := []
        eyeMarginProfile := []
        iterations := 0
        converged := false }
    let s := simLoop h env profile req.targetBER dt h.maxIterations 0 s0
    ({ corridorID := req0.corridorID
       status := if s.converged then "converged" else "partial_convergence"
       converged := s.converged
       finalBER := s.currentBER
       finalEyeMargin := s.currentEyeMargin
       convergenceTime := (s.iterations : ℚ) * dt
       iterations := s.iterations
       biasVoltages := s.biasVoltages
       lambdaShifts := s.lambdaShifts
       laserPowerAdjust := s.laserPowerAdjust
       powerSavings := calculatePowerSavings s.biasVoltages s.laserPowerAdjust
       temperatureProfile := s.temperatureProfile
       berProfile := s.berProfile
       eyeMarginProfile := s.eyeMarginProfile }, s.k)

/-- From `Simulate` in the Go source: an unknown ambient profile is the only
error return; with a known profile, `make([]float64, req.LambdaCount)` panics
when the defaulted lambda count is negative (the zero-default only fires at
exactly 0, and no rand draw happens before `make`), and otherwise the body
runs and returns a response. -/
def Simulate (h : HELIOPASSSimulator) (env : Env) (k0 : ℕ)
    (req0 : SimulationRequest) : SimOutcome :=
  match GetAmbientProfiles req0.ambientProfile with
  | none => .error ("unknown ambient profile: " ++ req0.ambientProfile)
  | some profile =>
    if (applyDefaults profile req0).lambdaCount < 0 then .panic
    else .ok (simulateRun h env k0 req0 profile)

/-!
Concrete instances used by witnesses and counterexamples.  The `rand` streams
take values in [0,1) as `rand.Float64` does; `expQ` and `sinQ` are sample
rational models of the library transcendentals (positive decreasing on the
nonpositive arguments the code uses, respectively odd and bounded by 1).
-/

/-- An environment whose measurement stream is a fixed function: `rand` is the
constant stream `c`, so every draw of the stream yields the same value no
matter where in the stream a call starts reading. -/
def constEnv (c : ℚ) (ef sf : ℚ → ℚ) : Env :=
  { rand := fun _ => c, expQ := ef, sinQ := sf }

/-- Sample rational stand-in for `math.Exp` (agrees with it at 0, positive and
decreasing on nonpositive arguments). -/
def expModel (x : ℚ) : ℚ := 1 / (1 - x)

/-- Sample rational stand-in for `math.Sin` (odd, zero at zero, bounded by 1). -/
def sinModel (x : ℚ) : ℚ := x / (1 + |x|)

/-- A deterministic mid-range environment: every rand draw is 0.5. -/
def envW : Env := constEnv 0.5 expModel sinModel

/-- A single-lane recalibration request with target BER 1e-12 and all
defaultable fields zero. -/
def reqW : SimulationRequest :=
  { corridorID := "corr-1", targetBER := 1e-12, ambientProfile := "lab_default"
    lambdaCount := 1, initialBER := 0, initialEyeMargin := 0, temperature := 0
    duration := 0 }

/-- Placeholder response used only as the else-branch of concrete
extractions. -/
def fallbackResp : SimulationResponse :=
  { corridorID := "", status := "", converged := false, finalBER := 0
    finalEyeMargin := 0, convergenceTime := 0, iterations := 0
    biasVoltages := [], lambdaShifts := [], laserPowerAdjust := []
    powerSavings := 0, temperatureProfile := [], berProfile := []
    eyeMarginProfile := [] }

/-- The response of the `envW`/`reqW` run. -/
def respW : SimulationResponse :=
  match Simulate NewHELIOPASSSimulator envW 0 reqW with
  | .ok r => r.1
  | _ => fallbackResp

/-- The stream position after the `envW`/`reqW` run. -/
def kW : ℕ :=
  match Simulate NewHELIOPASSSimulator envW 0 reqW with
  | .ok r => r.2
  | _ => 0

/-- Environment for the partial-convergence run: mid-range draws except that
the BER-noise draw of the last loop pass (stream index 397) is 0.99. -/
def envC4 : Env :=
  { rand := fun k => if k = 397 then 99 / 100 else 0.5
    expQ := expModel
    sinQ := sinModel }

/-- A request whose target BER 0 can never be reached (measured BER is floored
at 1e-15), so the loop always exhausts its 50 passes. -/
def reqC4 : SimulationRequest :=
  { corridorID := "corr-4", targetBER := 0, ambientProfile := "lab_default"
    lambdaCount := 1, initialBER := 0, initialEyeMargin := 0, temperature := 0
    duration := 0 }

/-- The response of the `envC4`/`reqC4` run. -/
def respC4 : SimulationResponse :=
  match Simulate NewHELIOPASSSimulator envC4 0 reqC4 with
  | .ok r => r.1
  | _ => fallbackResp

/-- Environment modelling one time-seeded global rand stream across two calls:
the first draw of the stream differs from all later ones. -/
def envC9 : Env :=
  { rand := fun k => if k = 0 then 0.5 else 0.25
    expQ := expModel
    sinQ := sinModel }

/-- A quickly converging single-lane request (target BER 1). -/
def reqC9 : SimulationRequest :=
  { corridorID := "corr-9", targetBER := 1, ambientProfile := "lab_default"
    lambdaCount := 1, initialBER := 0, initialEyeMargin := 0, temperature := 0
    duration := 0 }

/-- A request with every defaultable field zero. -/
def reqZero : SimulationRequest :=
  { corridorID := "corr-0", targetBER := 1e-12, ambientProfile := "lab_default"
    lambdaCount := 0, initialBER := 0, initialEyeMargin := 0, temperature := 0
    duration := 0 }

/-- A known-profile request whose lambda count is negative — representable in
a decoded Go request, since `LambdaCount` is an `int`. -/
def reqNeg : SimulationRequest :=
  { corridorID := "corr-neg", targetBER := 1e-12
    ambientProfile := "lab_default"
    lambdaCount := -1, initialBER := 0, initialEyeMargin := 0, temperature := 0
    duration := 0 }

/-- First call against the shared stream (starts at position 0). -/
def respC9a : SimulationResponse :=
  match Simulate NewHELIOPASSSimulator envC9 0 reqC9 with
  | .ok r => r.1
  | _ => fallbackResp

/-- Stream position at which the second call starts. -/
def kC9a : ℕ :=
  match Simulate NewHELIOPASSSimulator envC9 0 reqC9 with
  | .ok r => r.2
  | _ => 0

/-- Second call with the identical request, continuing the shared stream. -/
def respC9b : SimulationResponse :=
  match Simulate NewHELIOPASSSimulator envC9 kC9a reqC9 with
  | .ok r => r.1
  | _ => fallbackResp

/-- Stream position after the second call. -/
def kC9b : ℕ :=
  match Simulate NewHELIOPASSSimulator envC9 kC9a reqC9 with
  | .ok r => r.2
  | _ => 0

/-- Tier catalog of Scenario A: T0 has 64 GiB capacity and a 500 GB/s
bandwidth ceiling. -/
def catalogA : Fin 4 → TierSpec
  | 0 => ⟨68719476736, 500⟩
  | 1 => ⟨137438953472, 300⟩
  | 2 => ⟨274877906944, 150⟩
  | 3 => ⟨549755813888, 50⟩

/-- The ledger of Scenario A after the first 16 GiB / 500 GB/s grant. -/
def ledgerA1 : Ledger :=
  { catalog := catalogA, allocs := [⟨0, 17179869184, 0, 500⟩], nextId := 1 }

/-- Agreement of two loop states on every field except the rand-stream
position `k`. -/
def sameCore (s1 s2 : SimState) : Prop :=
  s1.currentBER = s2.currentBER ∧ s1.currentEyeMargin = s2.currentEyeMargin ∧
  s1.biasVoltages = s2.biasVoltages ∧ s1.lambdaShifts = s2.lambdaShifts ∧
  s1.laserPowerAdjust = s2.laserPowerAdjust ∧
  s1.temperatureProfile = s2.temperatureProfile ∧
  s1.berProfile = s2.berProfile ∧ s1.eyeMarginProfile = s2.eyeMarginProfile ∧
  s1.iterations = s2.iterations ∧ s1.converged = s2.converged

/-- The response of the `envW`/`reqW` run started at stream position 7. -/
def respW7 : SimulationResponse :=
  match Simulate NewHELIOPASSSimulator envW 7 reqW with
  | .ok r => r.1
  | _ => fallbackResp

/-- The stream position after the `envW`/`reqW` run started at position 7. -/
def kW7 : ℕ :=
  match Simulate NewHELIOPASSSimulator envW 7 reqW with
  | .ok r => r.2
  | _ => 0

/-- Everything one pass of the loop body establishes about its output state,
whatever the input state: clamped measurements and corrections, a positive
iteration count, a truthful convergence flag, and profile tails equal to the
current measurements. -/
def IterEstablished (targetBER : ℚ) (s : SimState) : Prop :=
  1e-15 ≤ s.currentBER ∧
  0.1 ≤ s.currentEyeMargin ∧ s.currentEyeMargin ≤ 1.5 ∧
  1 ≤ s.iterations ∧
  (∀ v ∈ s.biasVoltages, 0.8 ≤ v ∧ v ≤ 1.5) ∧
  (∀ x ∈ s.lambdaShifts, -0.1 ≤ x ∧ x ≤ 0.1) ∧
  (∀ p ∈ s.laserPowerAdjust, -2.0 ≤ p ∧ p ≤ 2.0) ∧
  (s.converged = true → s.currentBER ≤ targetBER * 1.1 ∧ 0.7 ≤ s.currentEyeMargin) ∧
  (s.berProfile.map Prod.snd).getLast? = some s.currentBER ∧
  (s.eyeMarginProfile.map Prod.snd).getLast? = some s.currentEyeMargin

/-!
Theorems.  First the generic loop lemmas, then one theorem per claim with its
witness or counterexample.
-/

/-- The loop body increments the iteration counter exactly once per pass. -/
theorem simIter_iterations (h : HELIOPASSSimulator) (env : Env)
    (profile : AmbientProfile) (targetBER dt : ℚ) (i : ℕ) (s : SimState) :
    (simIter h env profile targetBER dt i s).iterations = s.iterations + 1 := rfl

/-- The loop performs at most `fuel` body passes. -/
theorem simLoop_iterations_le (h : HELIOPASSSimulator) (env : Env)
    (profile : AmbientProfile) (targetBER dt : ℚ) :
    ∀ fuel i s, (simLoop h env profile targetBER dt fuel i s).iterations ≤
      s.iterations + fuel := by
  intro fuel
  induction fuel with
  | zero => intro i s; simp [simLoop]
  | succ f ih =>
    intro i s
    simp only [simLoop]
    by_cases hc : (simIter h env profile targetBER dt i s).converged
    · simp [hc, simIter_iterations]
    · simp only [hc, if_false]
      calc (simLoop h env profile targetBER dt f (i + 1)
              (simIter h env profile targetBER dt i s)).iterations
          ≤ (simIter h env profile targetBER dt i s).iterations + f := ih _ _
        _ = s.iterations + 1 + f := by rw [simIter_iterations]
        _ ≤ s.iterations + (f + 1) := by omega

/-- The defaulted lambda count is negative exactly when the requested one is
(the default fires only at exactly 0 and yields 8). -/
theorem applyDefaults_lambdaCount_neg (profile : AmbientProfile)
    (req : SimulationRequest) :
    ((applyDefaults profile req).lambdaCount < 0) ↔ req.lambdaCount < 0 := by
  by_cases h : req.lambdaCount = 0
  · simp only [applyDefaults, h, if_true, if_false]
    omega
  · simp only [applyDefaults, h, if_true, if_false]

/-- A call with an unknown ambient profile returns the lookup error. -/
theorem Simulate_unknown (h : HELIOPASSSimulator) (env : Env) (k0 : ℕ)
    (req : SimulationRequest)
    (hp : GetAmbientProfiles req.ambientProfile = none) :
    Simulate h env k0 req =
      .error ("unknown ambient profile: " ++ req.ambientProfile) := by
  unfold Simulate
  rw [hp]

/-- A call with a known ambient profile panics on a negative defaulted lambda
count and otherwise runs the body. -/
theorem Simulate_known (h : HELIOPASSSimulator) (env : Env) (k0 : ℕ)
    (req : SimulationRequest) (profile : AmbientProfile)
    (hp : GetAmbientProfiles req.ambientProfile = some profile) :
    Simulate h env k0 req =
      if (applyDefaults profile req).lambdaCount < 0 then .panic
      else .ok (simulateRun h env k0 req profile) := by
  unfold Simulate
  rw [hp]

/-- C3: for every request with a known ambient profile, the calibration loop
terminates (the embedded loop is structurally bounded) and the returned
iteration count is at most the hard `MaxIterations = 50` ceiling of
`NewHELIOPASSSimulator`. -/
theorem calibration_iterations_le_max (env : Env) (k0 : ℕ)
    (req : SimulationRequest) (resp : SimulationResponse) (k : ℕ)
    (hok : Simulate NewHELIOPASSSimulator env k0 req = .ok (resp, k)) :
    resp.iterations ≤ 50 := by
  cases hp : GetAmbientProfiles req.ambientProfile with
  | none => rw [Simulate_unknown _ _ _ _ hp] at hok; exact absurd hok (by simp)
  | some profile =>
    rw [Simulate_known _ _ _ _ _ hp] at hok
    split_ifs at hok with hneg
    unfold simulateRun at hok
    simp only [SimOutcome.ok.injEq, Prod.mk.injEq] at hok
    obtain ⟨hr, -⟩ := hok
    subst hr
    exact le_trans (simLoop_iterations_le _ _ _ _ _ _ _ _) (le_of_eq rfl)

/-- Witness for C3 at a concrete environment and request. -/
theorem calibration_iterations_le_max_witness : respW.iterations ≤ 50 :=
  calibration_iterations_le_max envW 0 reqW respW kW (by with_unfolding_all rfl)

/-- Every element produced by `updateBiasVoltages` lies in the clamp range
[0.8, 1.5], whatever the input lane values. -/
theorem updateBiasVoltages_clamped (h : HELIOPASSSimulator) (env : Env)
    (time : ℚ) (profile : AmbientProfile) :
    ∀ vs k, ∀ v ∈ (updateBiasVoltages h env time profile vs k).1,
      0.8 ≤ v ∧ v ≤ 1.5 := by
  intro vs
  induction vs with
  | nil => intro k v hv; simp [updateBiasVoltages] at hv
  | cons w ws ih =>
    intro k v hv
    simp only [updateBiasVoltages, List.mem_cons] at hv
    rcases hv with rfl | hv
    · exact ⟨le_max_left _ _, max_le (by norm_num) (min_le_left _ _)⟩
    · exact ih (k + 1) v hv

/-- Every element produced by `updateLambdaShifts` lies in the clamp range
[-0.1, 0.1]. -/
theorem updateLambdaShifts_clamped (env : Env) (time : ℚ)
    (profile : AmbientProfile) :
    ∀ ss k, ∀ x ∈ (updateLambdaShifts env time profile ss k).1,
      -0.1 ≤ x ∧ x ≤ 0.1 := by
  intro ss
  induction ss with
  | nil => intro k x hx; simp [updateLambdaShifts] at hx
  | cons w ws ih =>
    intro k x hx
    simp only [updateLambdaShifts, List.mem_cons] at hx
    rcases hx with rfl | hx
    · exact ⟨le_max_left _ _, max_le (by norm_num) (min_le_left _ _)⟩
    · exact ih (k + 1) x hx

/-- Every element produced by `updateLaserPower` lies in the clamp range
[-2.0, 2.0]. -/
theorem updateLaserPower_clamped (h : HELIOPASSSimulator) (env : Env)
    (time : ℚ) (profile : AmbientProfile) :
    ∀ ps k, ∀ p ∈ (updateLaserPower h env time profile ps k).1,
      -2.0 ≤ p ∧ p ≤ 2.0 := by
  intro ps
  induction ps with
  | nil => intro k p hp; simp [updateLaserPower] at hp
  | cons w ws ih =>
    intro k p hp
    simp only [updateLaserPower, List.mem_cons] at hp
    rcases hp with rfl | hp
    · exact ⟨le_max_left _ _, max_le (by norm_num) (min_le_left _ _)⟩
    · exact ih (k + 1) p hp

/-- The body appends the clamped BER measurement to the BER profile. -/
theorem simIter_berProfile (h : HELIOPASSSimulator) (env : Env)
    (profile : AmbientProfile) (targetBER dt : ℚ) (i : ℕ) (s : SimState) :
    (simIter h env profile targetBER dt i s).berProfile =
      s.berProfile ++
        [((i : ℚ) * dt, (simIter h env profile targetBER dt i s).currentBER)] := rfl

/-- The body appends the clamped eye-margin measurement to its profile. -/
theorem simIter_eyeProfile (h : HELIOPASSSimulator) (env : Env)
    (profile : AmbientProfile) (targetBER dt : ℚ) (i : ℕ) (s : SimState) :
    (simIter h env profile targetBER dt i s).eyeMarginProfile =
      s.eyeMarginProfile ++
        [((i : ℚ) * dt, (simIter h env profile targetBER dt i s).currentEyeMargin)] := rfl

/-- C5 core: one body pass establishes `IterEstablished` on any state. -/
theorem simIter_establishes (h : HELIOPASSSimulator) (env : Env)
    (profile : AmbientProfile) (targetBER dt : ℚ) (i : ℕ) (s : SimState) :
    IterEstablished targetBER (simIter h env profile targetBER dt i s) := by
  refine ⟨le_max_right _ _, le_max_left _ _,
    max_le (by norm_num) (min_le_left _ _), Nat.le_add_left 1 _,
    fun v hv => updateBiasVoltages_clamped h env _ profile _ _ v hv,
    fun x hx => updateLambdaShifts_clamped env _ profile _ _ x hx,
    fun p hp => updateLaserPower_clamped h env _ profile _ _ p hp,
    fun hc => of_decide_eq_true hc, ?_, ?_⟩
  · rw [simIter_berProfile, List.map_append]
    simp
  · rw [simIter_eyeProfile, List.map_append]
    simp

/-- Any property established by every body pass holds of the loop result when
at least one pass runs. -/
theorem simLoop_post (h : HELIOPASSSimulator) (env : Env)
    (profile : AmbientProfile) (targetBER dt : ℚ) (P : SimState → Prop)
    (hP : ∀ i s, P (simIter h env profile targetBER dt i s)) :
    ∀ fuel i s, 1 ≤ fuel → P (simLoop h env profile targetBER dt fuel i s) := by
  intro fuel
  induction fuel with
  | zero => intro i s hf; exact absurd hf (by omega)
  | succ f ih =>
    intro i s _
    simp only [simLoop]
    by_cases hc : (simIter h env profile targetBER dt i s).converged = true
    · rw [if_pos hc]; exact hP i s
    · rw [if_neg hc]
      cases f with
      | zero => simpa [simLoop] using hP i s
      | succ f2 => exact ih (i + 1) _ (by omega)

/-- The loop result satisfies `IterEstablished` whenever it runs at least one
pass. -/
theorem simLoop_established (h : HELIOPASSSimulator) (env : Env)
    (profile : AmbientProfile) (targetBER dt : ℚ) :
    ∀ fuel i s, 1 ≤ fuel →
      IterEstablished targetBER (simLoop h env profile targetBER dt fuel i s) :=
  simLoop_post h env profile targetBER dt _
    (simIter_establishes h env profile targetBER dt)

/-- A loop that ends unconverged has spent all its fuel. -/
theorem simLoop_not_converged (h : HELIOPASSSimulator) (env : Env)
    (profile : AmbientProfile) (targetBER dt : ℚ) :
    ∀ fuel i s, (simLoop h env profile targetBER dt fuel i s).converged = false →
      (simLoop h env profile targetBER dt fuel i s).iterations =
        s.iterations + fuel := by
  intro fuel
  induction fuel with
  | zero => intro i s _; simp [simLoop]
  | succ f ih =>
    intro i s hc
    simp only [simLoop] at hc ⊢
    by_cases hcv : (simIter h env profile targetBER dt i s).converged = true
    · rw [if_pos hcv] at hc
      rw [hcv] at hc
      exact absurd hc (by simp)
    · rw [if_neg hcv] at hc ⊢
      rw [ih (i + 1) _ hc, simIter_iterations]
      omega

/-- Everything a successful `Simulate` call guarantees about its response,
provided the simulator allows at least one pass. -/
theorem simulate_ok_facts (h : HELIOPASSSimulator) (env : Env) (k0 : ℕ)
    (req : SimulationRequest) (resp : SimulationResponse) (k : ℕ)
    (hfuel : 1 ≤ h.maxIterations)
    (hok : Simulate h env k0 req = .ok (resp, k)) :
    1e-15 ≤ resp.finalBER ∧
    0.1 ≤ resp.finalEyeMargin ∧ resp.finalEyeMargin ≤ 1.5 ∧
    1 ≤ resp.iterations ∧ resp.iterations ≤ h.maxIterations ∧
    (∀ v ∈ resp.biasVoltages, 0.8 ≤ v ∧ v ≤ 1.5) ∧
    (∀ x ∈ resp.lambdaShifts, -0.1 ≤ x ∧ x ≤ 0.1) ∧
    (∀ p ∈ resp.laserPowerAdjust, -2.0 ≤ p ∧ p ≤ 2.0) ∧
    (resp.converged = true →
      resp.finalBER ≤ req.targetBER * 1.1 ∧ 0.7 ≤ resp.finalEyeMargin) ∧
    resp.status = (if resp.converged then "converged" else "partial_convergence") ∧
    (resp.converged = false → resp.iterations = h.maxIterations) ∧
    (resp.berProfile.map Prod.snd).getLast? = some resp.finalBER ∧
    (resp.eyeMarginProfile.map Prod.snd).getLast? = some resp.finalEyeMargin := by
  cases hp : GetAmbientProfiles req.ambientProfile with
  | none => rw [Simulate_unknown _ _ _ _ hp] at hok; exact absurd hok (by simp)
  | some profile =>
    have hE := simLoop_established h env profile
      (applyDefaults profile req).targetBER
      (((applyDefaults profile req).duration : ℚ) / (h.maxIterations : ℚ))
      h.maxIterations 0
      { k := (initLanes env (applyDefaults profile req).lambdaCount.toNat k0).2
        currentBER := (applyDefaults profile req).initialBER
        currentEyeMargin := (applyDefaults profile req).initialEyeMargin
        biasVoltages := (initLanes env (applyDefaults profile req).lambdaCount.toNat k0).1.1
        lambdaShifts := (initLanes env (applyDefaults profile req).lambdaCount.toNat k0).1.2.1
        laserPowerAdjust := (initLanes env (applyDefaults profile req).lambdaCount.toNat k0).1.2.2
        temperatureProfile := []
        berProfile := []
        eyeMarginProfile := []
        iterations := 0
        converged := false } hfuel
    have hN := simLoop_not_converged h env profile
      (applyDefaults profile req).targetBER
      (((applyDefaults profile req).duration : ℚ) / (h.maxIterations : ℚ))
      h.maxIterations 0
      { k := (initLanes env (applyDefaults profile req).lambdaCount.toNat k0).2
        currentBER := (applyDefaults profile req).initialBER
        currentEyeMargin := (applyDefaults profile req).initialEyeMargin
        biasVoltages := (initLanes env (applyDefaults profile req).lambdaCount.toNat k0).1.1
        lambdaShifts := (initLanes env (applyDefaults profile req).lambdaCount.toNat k0).1.2.1
        laserPowerAdjust := (initLanes env (applyDefaults profile req).lambdaCount.toNat k0).1.2.2
        temperatureProfile := []
        berProfile := []
        eyeMarginProfile := []
        iterations := 0
        converged := false }
    have hI := simLoop_iterations_le h env profile
      (applyDefaults profile req).targetBER
      (((applyDefaults profile req).duration : ℚ) / (h.maxIterations : ℚ))
      h.maxIterations 0
      { k := (initLanes env (applyDefaults profile req).lambdaCount.toNat k0).2
        currentBER := (applyDefaults profile req).initialBER
        currentEyeMargin := (applyDefaults profile req).initialEyeMargin
        biasVoltages := (initLanes env (applyDefaults profile req).lambdaCount.toNat k0).1.1
        lambdaShifts := (initLanes env (applyDefaults profile req).lambdaCount.toNat k0).1.2.1
        laserPowerAdjust := (initLanes env (applyDefaults profile req).lambdaCount.toNat k0).1.2.2
        temperatureProfile := []
        berProfile := []
        eyeMarginProfile := []
        iterations := 0
        converged := false }
    rw [Simulate_known _ _ _ _ _ hp] at hok
    split_ifs at hok with hneg
    unfold simulateRun at hok
    simp only [SimOutcome.ok.injEq, Prod.mk.injEq] at hok
    obtain ⟨hr, -⟩ := hok
    subst hr
    obtain ⟨e1, e2, e3, e4, e5, e6, e7, e8, e9, e10⟩ := hE
    exact ⟨e1, e2, e3, e4, le_trans hI (le_of_eq (Nat.zero_add _)), e5, e6, e7,
      e8, rfl, fun hc => (hN hc).trans (Nat.zero_add _), e9, e10⟩

/-- C10: every successful `Simulate` response of `NewHELIOPASSSimulator`
satisfies FinalBER at least 1e-15, FinalEyeMargin within [0.1, 1.5], and an
iteration count of at least 1: the body clamps both measurements before the
convergence check and the loop runs at least one pass. -/
theorem final_metrics_clamped_and_loop_runs (env : Env) (k0 : ℕ)
    (req : SimulationRequest) (resp : SimulationResponse) (k : ℕ)
    (hok : Simulate NewHELIOPASSSimulator env k0 req = .ok (resp, k)) :
    1e-15 ≤ resp.finalBER ∧
    0.1 ≤ resp.finalEyeMargin ∧ resp.finalEyeMargin ≤ 1.5 ∧
    1 ≤ resp.iterations := by
  obtain ⟨f1, f2, f3, f4, -⟩ :=
    simulate_ok_facts NewHELIOPASSSimulator env k0 req resp k (by decide) hok
  exact ⟨f1, f2, f3, f4⟩

/-- Witness for C10 at a concrete environment and request. -/
theorem final_metrics_clamped_and_loop_runs_witness :
    1e-15 ≤ respW.finalBER ∧
    0.1 ≤ respW.finalEyeMargin ∧ respW.finalEyeMargin ≤ 1.5 ∧
    1 ≤ respW.iterations :=
  final_metrics_clamped_and_loop_runs envW 0 reqW respW kW
    (by with_unfolding_all rfl)

/-- C5: per-lane corrections are clamped after every body pass — any state
produced by `simIter` has every bias voltage in [0.8, 1.5] V, every
wavelength shift in [-0.1, 0.1] nm and every laser power adjustment in
[-2.0, 2.0] dB — and the vectors of every successful response satisfy the
same bounds. -/
theorem per_lane_corrections_clamped :
    (∀ (h : HELIOPASSSimulator) (env : Env) (profile : AmbientProfile)
        (targetBER dt : ℚ) (i : ℕ) (s : SimState),
      (∀ v ∈ (simIter h env profile targetBER dt i s).biasVoltages,
          0.8 ≤ v ∧ v ≤ 1.5) ∧
      (∀ x ∈ (simIter h env profile targetBER dt i s).lambdaShifts,
          -0.1 ≤ x ∧ x ≤ 0.1) ∧
      (∀ p ∈ (simIter h env profile targetBER dt i s).laserPowerAdjust,
          -2.0 ≤ p ∧ p ≤ 2.0)) ∧
    (∀ (env : Env) (k0 : ℕ) (req : SimulationRequest)
        (resp : SimulationResponse) (k : ℕ),
      Simulate NewHELIOPASSSimulator env k0 req = .ok (resp, k) →
      (∀ v ∈ resp.biasVoltages, 0.8 ≤ v ∧ v ≤ 1.5) ∧
      (∀ x ∈ resp.lambdaShifts, -0.1 ≤ x ∧ x ≤ 0.1) ∧
      (∀ p ∈ resp.laserPowerAdjust, -2.0 ≤ p ∧ p ≤ 2.0)) := by
  constructor
  · intro h env profile targetBER dt i s
    obtain ⟨-, -, -, -, e5, e6, e7, -⟩ :=
      simIter_establishes h env profile targetBER dt i s
    exact ⟨e5, e6, e7⟩
  · intro env k0 req resp k hok
    obtain ⟨-, -, -, -, -, f6, f7, f8, -⟩ :=
      simulate_ok_facts NewHELIOPASSSimulator env k0 req resp k (by decide) hok
    exact ⟨f6, f7, f8⟩

/-- Witness for C5 at a concrete environment and request. -/
theorem per_lane_corrections_clamped_witness :
    (∀ v ∈ respW.biasVoltages, 0.8 ≤ v ∧ v ≤ 1.5) ∧
    (∀ x ∈ respW.lambdaShifts, -0.1 ≤ x ∧ x ≤ 0.1) ∧
    (∀ p ∈ respW.laserPowerAdjust, -2.0 ≤ p ∧ p ≤ 2.0) :=
  per_lane_corrections_clamped.2 envW 0 reqW respW kW
    (by with_unfolding_all rfl)

/-- C4 (amended): `converged = true` is reported only when both final
conditions hold simultaneously (final BER at most `targetBER * 1.1` and final
eye margin at least 0.7); a loop that exhausts `MaxIterations` without meeting
both reports `converged = false` with status `partial_convergence` and the
final (last-iteration) BER and eye-margin values — which are the tails of the
recorded measurement profiles, not necessarily the best values achieved — and
a converged run is the only one whose status claims success. -/
theorem calibration_exit_reporting (env : Env) (k0 : ℕ)
    (req : SimulationRequest) (resp : SimulationResponse) (k : ℕ)
    (hok : Simulate NewHELIOPASSSimulator env k0 req = .ok (resp, k)) :
    (resp.converged = true →
      resp.finalBER ≤ req.targetBER * 1.1 ∧ 0.7 ≤ resp.finalEyeMargin ∧
      resp.status = "converged") ∧
    (resp.converged = false →
      resp.status = "partial_convergence" ∧ resp.iterations = 50) ∧
    (resp.berProfile.map Prod.snd).getLast? = some resp.finalBER ∧
    (resp.eyeMarginProfile.map Prod.snd).getLast? = some resp.finalEyeMargin := by
  obtain ⟨-, -, -, -, -, -, -, -, f9, f10, f11, f12, f13⟩ :=
    simulate_ok_facts NewHELIOPASSSimulator env k0 req resp k (by decide) hok
  refine ⟨fun hc => ⟨(f9 hc).1, (f9 hc).2, ?_⟩, fun hc => ⟨?_, f11 hc⟩, f12, f13⟩
  · simp [f10, hc]
  · simp [f10, hc]

/-- Counterexample for C4 as stated: a partial-convergence run whose reported
final BER is strictly worse than the best BER recorded in its own profile, so
the response does not report the best-achieved value. -/
theorem calibration_best_achieved_counterexample :
    respC4.converged = false ∧ respC4.status = "partial_convergence" ∧
    (respC4.berProfile.map Prod.snd).foldr min respC4.finalBER <
      respC4.finalBER := by
  with_unfolding_all decide

/-- Witness for C4 at a concrete environment and request (a converged run). -/
theorem calibration_exit_reporting_witness :
    respW.converged = true ∧
    respW.finalBER ≤ reqW.targetBER * 1.1 ∧ 0.7 ≤ respW.finalEyeMargin ∧
    respW.status = "converged" :=
  have h := (calibration_exit_reporting envW 0 reqW respW kW
    (by with_unfolding_all rfl)).1 (by with_unfolding_all decide)
  ⟨by with_unfolding_all decide, h.1, h.2.1, h.2.2⟩

/-- Summing respects pointwise comparison of equal-length lists. -/
theorem list_sum_le_of_forall₂ {l1 l2 : List ℚ}
    (hf : List.Forall₂ (fun a b => a ≤ b) l1 l2) : l1.sum ≤ l2.sum := by
  induction hf with
  | nil => simp
  | cons hab htail ih => simp only [List.sum_cons]; exact add_le_add hab ih

/-- Lowering a bias voltage raises its per-lane savings term. -/
theorem voltage_terms_mono {b1 b2 : List ℚ}
    (hb : List.Forall₂ (fun a b => a ≤ b) b1 b2) :
    List.Forall₂ (fun a b => a ≤ b)
      (b2.map (fun v => (1.2 - v) * 10.0)) (b1.map (fun v => (1.2 - v) * 10.0)) := by
  induction hb with
  | nil => exact List.Forall₂.nil
  | cons hab htail ih => exact List.Forall₂.cons (by linarith) ih

/-- Lowering a laser-power adjustment raises its per-lane savings term. -/
theorem laser_term_antitone (a b : ℚ) (hab : a ≤ b) :
    (if b < 0 then |b| * 5.0 else 0) ≤ (if a < 0 then |a| * 5.0 else 0) := by
  by_cases hb : b < 0
  · have ha : a < 0 := lt_of_le_of_lt hab hb
    rw [if_pos hb, if_pos ha, abs_of_neg hb, abs_of_neg ha]
    linarith
  · rw [if_neg hb]
    by_cases ha : a < 0
    · rw [if_pos ha]; positivity
    · rw [if_neg ha]

/-- Pointwise version of `laser_term_antitone`. -/
theorem laser_terms_mono {p1 p2 : List ℚ}
    (hp : List.Forall₂ (fun a b => a ≤ b) p1 p2) :
    List.Forall₂ (fun a b => a ≤ b)
      (p2.map (fun p => if p < 0 then |p| * 5.0 else 0))
      (p1.map (fun p => if p < 0 then |p| * 5.0 else 0)) := by
  induction hp with
  | nil => exact List.Forall₂.nil
  | cons hab htail ih => exact List.Forall₂.cons (laser_term_antitone _ _ hab) ih

/-- C6: the reported power savings always lie in [0, 20] percent, and the
figure is monotone — lowering any lane's bias voltage, or lowering any lane's
laser-power adjustment, never decreases it. -/
theorem power_savings_bounded_monotone :
    (∀ biasVoltages laserPowerAdjust : List ℚ,
      0 ≤ calculatePowerSavings biasVoltages laserPowerAdjust ∧
      calculatePowerSavings biasVoltages laserPowerAdjust ≤ 20) ∧
    (∀ b1 b2 p1 p2 : List ℚ,
      List.Forall₂ (fun a b => a ≤ b) b1 b2 →
      List.Forall₂ (fun a b => a ≤ b) p1 p2 →
      calculatePowerSavings b2 p2 ≤ calculatePowerSavings b1 p1) := by
  constructor
  · intro bv lp
    exact ⟨le_max_left _ _, max_le (by norm_num) (min_le_left _ _)⟩
  · intro b1 b2 p1 p2 hb hp
    have hlb : b1.length = b2.length := List.Forall₂.length_eq hb
    have hlp : p1.length = p2.length := List.Forall₂.length_eq hp
    have hV : ((b2.map (fun v => (1.2 - v) * 10.0)).sum) / (b2.length : ℚ) ≤
        ((b1.map (fun v => (1.2 - v) * 10.0)).sum) / (b1.length : ℚ) := by
      rw [← hlb]
      rcases Nat.eq_zero_or_pos b1.length with h0 | hpos
      · rw [h0]; norm_num
      · have hc : (0 : ℚ) < (b1.length : ℚ) := by exact_mod_cast hpos
        exact (div_le_div_iff_of_pos_right hc).mpr (list_sum_le_of_forall₂ (voltage_terms_mono hb))
    have hL : ((p2.map (fun p => if p < 0 then |p| * 5.0 else 0)).sum) / (p2.length : ℚ) ≤
        ((p1.map (fun p => if p < 0 then |p| * 5.0 else 0)).sum) / (p1.length : ℚ) := by
      rw [← hlp]
      rcases Nat.eq_zero_or_pos p1.length with h0 | hpos
      · rw [h0]; norm_num
      · have hc : (0 : ℚ) < (p1.length : ℚ) := by exact_mod_cast hpos
        exact (div_le_div_iff_of_pos_right hc).mpr (list_sum_le_of_forall₂ (laser_terms_mono hp))
    exact max_le_max le_rfl (min_le_min le_rfl (add_le_add hV hL))

/-- Witness for C6: lowering one lane's bias voltage and laser power does not
decrease the reported savings. -/
theorem power_savings_bounded_monotone_witness :
    calculatePowerSavings [1.2] [0.5] ≤ calculatePowerSavings [1.0] [-1.0] :=
  power_savings_bounded_monotone.2 [1.0] [1.2] [-1.0] [0.5]
    (List.Forall₂.cons (by norm_num) List.Forall₂.nil)
    (List.Forall₂.cons (by norm_num) List.Forall₂.nil)

/-- C8 (amended): `Simulate` returns an error exactly when the requested
ambient profile is unknown; with a known profile it panics exactly when the
request's lambda count is negative (Go's `make([]float64, n)` with `n < 0`,
reachable because `LambdaCount` is an `int`) and succeeds exactly when the
lambda count is nonnegative; zero-valued request fields receive the
enumerated defaults — lambda count 8, initial BER 1e-9, duration 60 seconds,
initial eye margin 0.5. -/
theorem simulate_outcome_trichotomy :
    (∀ (h : HELIOPASSSimulator) (env : Env) (k0 : ℕ) (req : SimulationRequest),
      (∃ e, Simulate h env k0 req = .error e) ↔
        GetAmbientProfiles req.ambientProfile = none) ∧
    (∀ (h : HELIOPASSSimulator) (env : Env) (k0 : ℕ) (req : SimulationRequest),
      Simulate h env k0 req = .panic ↔
        ((GetAmbientProfiles req.ambientProfile).isSome = true ∧
          req.lambdaCount < 0)) ∧
    (∀ (h : HELIOPASSSimulator) (env : Env) (k0 : ℕ) (req : SimulationRequest),
      (∃ r, Simulate h env k0 req = .ok r) ↔
        ((GetAmbientProfiles req.ambientProfile).isSome = true ∧
          0 ≤ req.lambdaCount)) ∧
    (∀ (profile : AmbientProfile) (req : SimulationRequest),
      (req.lambdaCount = 0 → (applyDefaults profile req).lambdaCount = 8) ∧
      (req.initialBER = 0 → (applyDefaults profile req).initialBER = 1e-9) ∧
      (req.initialEyeMargin = 0 →
        (applyDefaults profile req).initialEyeMargin = 0.5) ∧
      (req.duration = 0 → (applyDefaults profile req).duration = 60)) := by
  refine ⟨?_, ?_, ?_, ?_⟩
  · intro h env k0 req
    cases hp : GetAmbientProfiles req.ambientProfile with
    | none => rw [Simulate_unknown _ _ _ _ hp]; simp
    | some profile =>
      rw [Simulate_known _ _ _ _ _ hp]
      split_ifs <;> simp
  · intro h env k0 req
    cases hp : GetAmbientProfiles req.ambientProfile with
    | none => rw [Simulate_unknown _ _ _ _ hp]; simp
    | some profile =>
      rw [Simulate_known _ _ _ _ _ hp]
      split_ifs with hc <;> rw [applyDefaults_lambdaCount_neg] at hc <;>
        simp [hc]
  · intro h env k0 req
    cases hp : GetAmbientProfiles req.ambientProfile with
    | none => rw [Simulate_unknown _ _ _ _ hp]; simp
    | some profile =>
      rw [Simulate_known _ _ _ _ _ hp]
      split_ifs with hc
      · rw [applyDefaults_lambdaCount_neg] at hc
        simp [hc]
      · rw [applyDefaults_lambdaCount_neg] at hc
        simp [hc]
        omega
  · intro profile req
    refine ⟨fun hz => ?_, fun hz => ?_, fun hz => ?_, fun hz => ?_⟩ <;>
      simp [applyDefaults, hz]

/-- Counterexample for C8 as stated ("for a known profile it succeeds"): a
request naming the known profile `lab_default` but carrying `lambda_count`
-1 makes the call panic — it neither succeeds nor returns an error. -/
theorem simulate_known_profile_panic_counterexample :
    (GetAmbientProfiles reqNeg.ambientProfile).isSome = true ∧
    Simulate NewHELIOPASSSimulator envW 0 reqNeg = .panic := by
  exact ⟨rfl, by decide⟩

/-- Witness for C8's amended theorem: the all-zero request receives all four
defaults. -/
theorem simulate_outcome_trichotomy_witness :
    (applyDefaults ⟨"Laboratory Default", 22.0, 45.0, 0.1, -80.0, 0.001,
        "excellent", 0.05⟩ reqZero).lambdaCount = 8 ∧
    (applyDefaults ⟨"Laboratory Default", 22.0, 45.0, 0.1, -80.0, 0.001,
        "excellent", 0.05⟩ reqZero).initialBER = 1e-9 ∧
    (applyDefaults ⟨"Laboratory Default", 22.0, 45.0, 0.1, -80.0, 0.001,
        "excellent", 0.05⟩ reqZero).initialEyeMargin = 0.5 ∧
    (applyDefaults ⟨"Laboratory Default", 22.0, 45.0, 0.1, -80.0, 0.001,
        "excellent", 0.05⟩ reqZero).duration = 60 :=
  have h := simulate_outcome_trichotomy.2.2.2
    ⟨"Laboratory Default", 22.0, 45.0, 0.1, -80.0, 0.001, "excellent", 0.05⟩
    reqZero
  ⟨h.1 rfl, h.2.1 rfl, h.2.2.1 rfl, h.2.2.2 rfl⟩

/-- Projection of a constant environment's rand stream. -/
theorem constEnv_rand (c : ℚ) (ef sf : ℚ → ℚ) (k : ℕ) :
    (constEnv c ef sf).rand k = c := rfl

/-- Projection of a constant environment's exponential model. -/
theorem constEnv_expQ (c : ℚ) (ef sf : ℚ → ℚ) (x : ℚ) :
    (constEnv c ef sf).expQ x = ef x := rfl

/-- Projection of a constant environment's sine model. -/
theorem constEnv_sinQ (c : ℚ) (ef sf : ℚ → ℚ) (x : ℚ) :
    (constEnv c ef sf).sinQ x = sf x := rfl

/-- With a constant stream, lane initialization does not depend on the stream
position. -/
theorem initLanes_const (c : ℚ) (ef sf : ℚ → ℚ) :
    ∀ n k1 k2, (initLanes (constEnv c ef sf) n k1).1 =
      (initLanes (constEnv c ef sf) n k2).1 := by
  intro n
  induction n with
  | zero => intro k1 k2; rfl
  | succ m ih =>
    intro k1 k2
    simp only [initLanes, constEnv_rand]
    rw [ih (k1 + 3) (k2 + 3)]

/-- With a constant stream, bias updates do not depend on the stream
position. -/
theorem updateBiasVoltages_const (h : HELIOPASSSimulator) (c : ℚ)
    (ef sf : ℚ → ℚ) (time : ℚ) (profile : AmbientProfile) :
    ∀ vs k1 k2, (updateBiasVoltages h (constEnv c ef sf) time profile vs k1).1 =
      (updateBiasVoltages h (constEnv c ef sf) time profile vs k2).1 := by
  intro vs
  induction vs with
  | nil => intro k1 k2; rfl
  | cons v vs ih =>
    intro k1 k2
    simp only [updateBiasVoltages, constEnv_rand]
    rw [ih (k1 + 1) (k2 + 1)]

/-- With a constant stream, wavelength updates do not depend on the stream
position. -/
theorem updateLambdaShifts_const (c : ℚ) (ef sf : ℚ → ℚ) (time : ℚ)
    (profile : AmbientProfile) :
    ∀ ss k1 k2, (updateLambdaShifts (constEnv c ef sf) time profile ss k1).1 =
      (updateLambdaShifts (constEnv c ef sf) time profile ss k2).1 := by
  intro ss
  induction ss with
  | nil => intro k1 k2; rfl
  | cons v vs ih =>
    intro k1 k2
    simp only [updateLambdaShifts, constEnv_rand]
    rw [ih (k1 + 1) (k2 + 1)]

/-- With a constant stream, laser-power updates do not depend on the stream
position. -/
theorem updateLaserPower_const (h : HELIOPASSSimulator) (c : ℚ)
    (ef sf : ℚ → ℚ) (time : ℚ) (profile : AmbientProfile) :
    ∀ ps k1 k2, (updateLaserPower h (constEnv c ef sf) time profile ps k1).1 =
      (updateLaserPower h (constEnv c ef sf) time profile ps k2).1 := by
  intro ps
  induction ps with
  | nil => intro k1 k2; rfl
  | cons v vs ih =>
    intro k1 k2
    simp only [updateLaserPower, constEnv_rand]
    rw [ih (k1 + 1) (k2 + 1)]

/-- With a constant stream, one body pass maps states agreeing off-stream to
states agreeing off-stream. -/
theorem simIter_const (h : HELIOPASSSimulator) (c : ℚ) (ef sf : ℚ → ℚ)
    (profile : AmbientProfile) (targetBER dt : ℚ) (i : ℕ) (s1 s2 : SimState)
    (hs : sameCore s1 s2) :
    sameCore (simIter h (constEnv c ef sf) profile targetBER dt i s1)
      (simIter h (constEnv c ef sf) profile targetBER dt i s2) := by
  obtain ⟨h1, h2, h3, h4, h5, h6, h7, h8, h9, h10⟩ := hs
  unfold sameCore simIter
  simp only [simulateTemperatureNoise, calculateImprovement, calculateBERNoise,
    calculateEyeImprovement, calculateEyeNoise, constEnv_rand, constEnv_expQ,
    constEnv_sinQ]
  refine ⟨by rw [h1], by rw [h2], ?_, ?_, ?_, by rw [h6], by rw [h7, h1],
    by rw [h8, h2], by rw [h9], by rw [h1, h2]⟩
  · rw [h3]; exact updateBiasVoltages_const _ _ _ _ _ _ _ _ _
  · rw [h4]; exact updateLambdaShifts_const _ _ _ _ _ _ _ _
  · rw [h5]; exact updateLaserPower_const _ _ _ _ _ _ _ _ _

/-- With a constant stream, the whole loop maps states agreeing off-stream to
states agreeing off-stream. -/
theorem simLoop_const (h : HELIOPASSSimulator) (c : ℚ) (ef sf : ℚ → ℚ)
    (profile : AmbientProfile) (targetBER dt : ℚ) :
    ∀ fuel i s1 s2, sameCore s1 s2 →
      sameCore (simLoop h (constEnv c ef sf) profile targetBER dt fuel i s1)
        (simLoop h (constEnv c ef sf) profile targetBER dt fuel i s2) := by
  intro fuel
  induction fuel with
  | zero => intro i s1 s2 hs; exact hs
  | succ f ih =>
    intro i s1 s2 hs
    have hstep := simIter_const h c ef sf profile targetBER dt i s1 s2 hs
    have hcv := hstep.2.2.2.2.2.2.2.2.2
    simp only [simLoop]
    by_cases hc1 :
        (simIter h (constEnv c ef sf) profile targetBER dt i s1).converged = true
    · rw [if_pos hc1, if_pos (hcv.symm.trans hc1)]
      exact hstep
    · rw [if_neg hc1, if_neg (fun hh => hc1 (hcv.trans hh))]
      exact ih (i + 1) _ _ hstep

/-- C9 (amended): with a deterministic measurement source — a constant rand
stream, as the spec's deterministic fake `MeasurementSource` — two `Simulate`
calls with identical requests produce identical responses regardless of where
in the stream each call starts reading. -/
theorem simulate_deterministic_given_source (h : HELIOPASSSimulator) (c : ℚ)
    (ef sf : ℚ → ℚ) (k1 k2 : ℕ) (req : SimulationRequest)
    (r1 r2 : SimulationResponse) (n1 n2 : ℕ)
    (hok1 : Simulate h (constEnv c ef sf) k1 req = .ok (r1, n1))
    (hok2 : Simulate h (constEnv c ef sf) k2 req = .ok (r2, n2)) :
    r1 = r2 := by
  cases hp : GetAmbientProfiles req.ambientProfile with
  | none =>
    rw [Simulate_unknown _ _ _ _ hp] at hok1
    exact absurd hok1 (by simp)
  | some profile =>
    have hinit := initLanes_const c ef sf
      (applyDefaults profile req).lambdaCount.toNat k1 k2
    have hs0 : sameCore
        { k := (initLanes (constEnv c ef sf) (applyDefaults profile req).lambdaCount.toNat k1).2
          currentBER := (applyDefaults profile req).initialBER
          currentEyeMargin := (applyDefaults profile req).initialEyeMargin
          biasVoltages := (initLanes (constEnv c ef sf) (applyDefaults profile req).lambdaCount.toNat k1).1.1
          lambdaShifts := (initLanes (constEnv c ef sf) (applyDefaults profile req).lambdaCount.toNat k1).1.2.1
          laserPowerAdjust := (initLanes (constEnv c ef sf) (applyDefaults profile req).lambdaCount.toNat k1).1.2.2
          temperatureProfile := []
          berProfile := []
          eyeMarginProfile := []
          iterations := 0
          converged := false }
        { k := (initLanes (constEnv c ef sf) (applyDefaults profile req).lambdaCount.toNat k2).2
          currentBER := (applyDefaults profile req).initialBER
          currentEyeMargin := (applyDefaults profile req).initialEyeMargin
          biasVoltages := (initLanes (constEnv c ef sf) (applyDefaults profile req).lambdaCount.toNat k2).1.1
          lambdaShifts := (initLanes (constEnv c ef sf) (applyDefaults profile req).lambdaCount.toNat k2).1.2.1
          laserPowerAdjust := (initLanes (constEnv c ef sf) (applyDefaults profile req).lambdaCount.toNat k2).1.2.2
          temperatureProfile := []
          berProfile := []
          eyeMarginProfile := []
          iterations := 0
          converged := false } := by
      refine ⟨rfl, rfl, ?_, ?_, ?_, rfl, rfl, rfl, rfl, rfl⟩
      · exact congrArg (fun q => q.1) hinit
      · exact congrArg (fun q => q.2.1) hinit
      · exact congrArg (fun q => q.2.2) hinit
    have hsl := simLoop_const h c ef sf profile
      (applyDefaults profile req).targetBER
      (((applyDefaults profile req).duration : ℚ) / (h.maxIterations : ℚ))
      h.maxIterations 0 _ _ hs0
    obtain ⟨g1, g2, g3, g4, g5, g6, g7, g8, g9, g10⟩ := hsl
    rw [Simulate_known _ _ _ _ _ hp] at hok1 hok2
    split_ifs at hok1 hok2 with hneg
    unfold simulateRun at hok1 hok2
    simp only [SimOutcome.ok.injEq, Prod.mk.injEq] at hok1 hok2
    obtain ⟨hr1, -⟩ := hok1
    obtain ⟨hr2, -⟩ := hok2
    subst hr1
    subst hr2
    rw [g1, g2, g3, g4, g5, g6, g7, g8, g9, g10]

/-- Witness for C9's amended theorem: the all-0.5 deterministic source gives
the same response when the call starts at stream position 0 or 7. -/
theorem simulate_deterministic_given_source_witness : respW = respW7 :=
  simulate_deterministic_given_source NewHELIOPASSSimulator 0.5 expModel
    sinModel 0 7 reqW respW respW7 kW kW7
    (by with_unfolding_all rfl) (by with_unfolding_all rfl)

/-- Counterexample for C9 as stated: two successive calls with the identical
request against the (shared, time-seeded) global rand stream — the second
call starts reading the stream where the first stopped — return different
responses. -/
theorem simulate_depends_on_rand_stream :
    Simulate NewHELIOPASSSimulator envC9 0 reqC9 = .ok (respC9a, kC9a) ∧
    Simulate NewHELIOPASSSimulator envC9 kC9a reqC9 = .ok (respC9b, kC9b) ∧
    respC9a ≠ respC9b := by
  refine ⟨by with_unfolding_all rfl, by with_unfolding_all rfl, ?_⟩
  have hbias : respC9a.biasVoltages ≠ respC9b.biasVoltages := by
    with_unfolding_all decide
  exact fun hh => hbias (congrArg SimulationResponse.biasVoltages hh)

/-- Unfolding of the per-tier floor sum on a cons cell. -/
theorem sumFloorTier_cons (a : Allocation) (l : List Allocation) (t : Fin 4) :
    sumFloorTier (a :: l) t =
      (if a.tier == t then a.bandwidthFloorGBs else 0) + sumFloorTier l t := by
  by_cases h : a.tier == t <;> simp [sumFloorTier, List.filter_cons, h]

/-- Unfolding of the per-tier byte sum on a cons cell. -/
theorem sumBytesTier_cons (a : Allocation) (l : List Allocation) (t : Fin 4) :
    sumBytesTier (a :: l) t =
      (if a.tier == t then a.bytes else 0) + sumBytesTier l t := by
  by_cases h : a.tier == t <;> simp [sumBytesTier, List.filter_cons, h]

/-- Sums over sublists never exceed sums over the whole list. -/
theorem sum_le_of_sublist {l1 l2 : List ℕ} (h : l1.Sublist l2) :
    l1.sum ≤ l2.sum := by
  induction h with
  | slnil => simp
  | cons a h ih => simpa using le_trans ih (Nat.le_add_left _ _)
  | cons₂ a h ih => simpa using ih

/-- Dropping allocations can only shrink a tier's committed floor sum. -/
theorem sumFloorTier_filter_le (l : List Allocation) (p : Allocation → Bool)
    (t : Fin 4) : sumFloorTier (l.filter p) t ≤ sumFloorTier l t := by
  exact sum_le_of_sublist (List.Sublist.map _
    (List.Sublist.filter _ (List.filter_sublist l)))

/-- Dropping allocations can only shrink a tier's byte sum. -/
theorem sumBytesTier_filter_le (l : List Allocation) (p : Allocation → Bool)
    (t : Fin 4) : sumBytesTier (l.filter p) t ≤ sumBytesTier l t := by
  exact sum_le_of_sublist (List.Sublist.map _
    (List.Sublist.filter _ (List.filter_sublist l)))

/-- A resident allocation's floor is at most its tier's committed sum. -/
theorem mem_floor_le_sumFloorTier {l : List Allocation} {a : Allocation}
    (ha : a ∈ l) : a.bandwidthFloorGBs ≤ sumFloorTier l a.tier := by
  induction l with
  | nil => cases ha
  | cons b l ih =>
    rw [sumFloorTier_cons]
    rcases List.mem_cons.mp ha with rfl | h
    · simp
    · exact le_trans (ih h) (Nat.le_add_left _ _)

/-- An id-keyed update is the identity on a list free of that id. -/
theorem map_update_of_not_mem (l : List Allocation) (i : ℕ)
    (f : Allocation → Allocation) (h : ∀ b ∈ l, b.id ≠ i) :
    l.map (fun b => if b.id == i then f b else b) = l := by
  induction l with
  | nil => rfl
  | cons b l ih =>
    simp only [List.map_cons]
    rw [if_neg (by simpa using h b (List.mem_cons_self b l)),
      ih (fun x hx => h x (List.mem_cons_of_mem b hx))]

/-- An id-keyed, id-preserving update leaves the id multiset unchanged. -/
theorem ids_map_update (l : List Allocation) (i : ℕ)
    (f : Allocation → Allocation) (hf : ∀ b, (f b).id = b.id) :
    (l.map (fun b => if b.id == i then f b else b)).map (fun x => x.id) =
      l.map (fun x => x.id) := by
  induction l with
  | nil => rfl
  | cons b l ih =>
    by_cases hb : b.id == i
    · simp only [List.map_cons, if_pos hb, hf b, ih]
    · simp only [List.map_cons, if_neg hb, ih]

/-- Changing one resident allocation's floor moves the committed sum of its
tier by exactly the floor change, with all ids distinct. -/
theorem sumFloorTier_update_floor (i nf : ℕ) (t : Fin 4) :
    ∀ (l : List Allocation) (a : Allocation),
      (l.map (fun x => x.id)).Nodup → a ∈ l → a.id = i →
      sumFloorTier (l.map (fun b =>
          if b.id == i then { b with bandwidthFloorGBs := nf } else b)) t
        + (if a.tier == t then a.bandwidthFloorGBs else 0)
      = sumFloorTier l t + (if a.tier == t then nf else 0) := by
  intro l
  induction l with
  | nil => intro a _ ha _; cases ha
  | cons b l ih =>
    intro a hnd ha hai
    simp only [List.map_cons] at hnd
    have hnd' := List.nodup_cons.mp hnd
    by_cases hb : b.id == i
    · have hbi : b.id = i := by simpa using hb
      have hab : a = b := by
        rcases List.mem_cons.mp ha with rfl | hal
        · rfl
        · exact absurd (by rw [hbi, ← hai]; exact List.mem_map_of_mem _ hal)
            hnd'.1
      subst hab
      simp only [List.map_cons, if_pos hb]
      rw [map_update_of_not_mem l i _
        (fun x hx hxi => hnd'.1 (by rw [hbi, ← hxi]; exact List.mem_map_of_mem _ hx))]
      rw [sumFloorTier_cons, sumFloorTier_cons]
      by_cases ht : a.tier == t
      · simp only [show ({ a with bandwidthFloorGBs := nf } : Allocation).tier
            = a.tier from rfl, if_pos ht]
        omega
      · simp only [show ({ a with bandwidthFloorGBs := nf } : Allocation).tier
            = a.tier from rfl, if_neg ht]
    · have hbi : b.id ≠ i := by simpa using hb
      have hal : a ∈ l := by
        rcases List.mem_cons.mp ha with rfl | hal
        · exact absurd hai hbi
        · exact hal
      simp only [List.map_cons, if_neg hb]
      rw [sumFloorTier_cons, sumFloorTier_cons]
      have heq := ih a hnd'.2 hal hai
      omega

/-- A floor-only update never changes any tier's byte sum. -/
theorem sumBytesTier_update_floor (i nf : ℕ) (t : Fin 4) :
    ∀ l : List Allocation,
      sumBytesTier (l.map (fun b =>
        if b.id == i then { b with bandwidthFloorGBs := nf } else b)) t
      = sumBytesTier l t := by
  intro l
  induction l with
  | nil => rfl
  | cons b l ih =>
    simp only [List.map_cons]
    rw [sumBytesTier_cons, sumBytesTier_cons, ih]
    by_cases hb : b.id == i
    · rw [if_pos hb]
    · rw [if_neg hb]

/-- Migrating one resident allocation moves its floor contribution from the
source tier to the destination tier. -/
theorem sumFloorTier_update_tier (i : ℕ) (tg t : Fin 4) :
    ∀ (l : List Allocation) (a : Allocation),
      (l.map (fun x => x.id)).Nodup → a ∈ l → a.id = i →
      sumFloorTier (l.map (fun b =>
          if b.id == i then { b with tier := tg } else b)) t
        + (if a.tier == t then a.bandwidthFloorGBs else 0)
      = sumFloorTier l t + (if tg == t then a.bandwidthFloorGBs else 0) := by
  intro l
  induction l with
  | nil => intro a _ ha _; cases ha
  | cons b l ih =>
    intro a hnd ha hai
    simp only [List.map_cons] at hnd
    have hnd' := List.nodup_cons.mp hnd
    by_cases hb : b.id == i
    · have hbi : b.id = i := by simpa using hb
      have hab : a = b := by
        rcases List.mem_cons.mp ha with rfl | hal
        · rfl
        · exact absurd (by rw [hbi, ← hai]; exact List.mem_map_of_mem _ hal)
            hnd'.1
      subst hab
      simp only [List.map_cons, if_pos hb]
      rw [map_update_of_not_mem l i _
        (fun x hx hxi => hnd'.1 (by rw [hbi, ← hxi]; exact List.mem_map_of_mem _ hx))]
      rw [sumFloorTier_cons, sumFloorTier_cons]
      simp only [show ({ a with tier := tg } : Allocation).tier = tg from rfl,
        show ({ a with tier := tg } : Allocation).bandwidthFloorGBs
          = a.bandwidthFloorGBs from rfl]
      omega
    · have hbi : b.id ≠ i := by simpa using hb
      have hal : a ∈ l := by
        rcases List.mem_cons.mp ha with rfl | hal
        · exact absurd hai hbi
        · exact hal
      simp only [List.map_cons, if_neg hb]
      rw [sumFloorTier_cons, sumFloorTier_cons]
      have heq := ih a hnd'.2 hal hai
      omega

/-- Migrating one resident allocation moves its byte contribution from the
source tier to the destination tier. -/
theorem sumBytesTier_update_tier (i : ℕ) (tg t : Fin 4) :
    ∀ (l : List Allocation) (a : Allocation),
      (l.map (fun x => x.id)).Nodup → a ∈ l → a.id = i →
      sumBytesTier (l.map (fun b =>
          if b.id == i then { b with tier := tg } else b)) t
        + (if a.tier == t then a.bytes else 0)
      = sumBytesTier l t + (if tg == t then a.bytes else 0) := by
  intro l
  induction l with
  | nil => intro a _ ha _; cases ha
  | cons b l ih =>
    intro a hnd ha hai
    simp only [List.map_cons] at hnd
    have hnd' := List.nodup_cons.mp hnd
    by_cases hb : b.id == i
    · have hbi : b.id = i := by simpa using hb
      have hab : a = b := by
        rcases List.mem_cons.mp ha with rfl | hal
        · rfl
        · exact absurd (by rw [hbi, ← hai]; exact List.mem_map_of_mem _ hal)
            hnd'.1
      subst hab
      simp only [List.map_cons, if_pos hb]
      rw [map_update_of_not_mem l i _
        (fun x hx hxi => hnd'.1 (by rw [hbi, ← hxi]; exact List.mem_map_of_mem _ hx))]
      rw [sumBytesTier_cons, sumBytesTier_cons]
      simp only [show ({ a with tier := tg } : Allocation).tier = tg from rfl,
        show ({ a with tier := tg } : Allocation).bytes = a.bytes from rfl]
      omega
    · have hbi : b.id ≠ i := by simpa using hb
      have hal : a ∈ l := by
        rcases List.mem_cons.mp ha with rfl | hal
        · exact absurd hai hbi
        · exact hal
      simp only [List.map_cons, if_neg hb]
      rw [sumBytesTier_cons, sumBytesTier_cons]
      have heq := ih a hnd'.2 hal hai
      omega

/-- Filtering out one resident id removes exactly its floor contribution. -/
theorem sumFloorTier_erase (i : ℕ) (t : Fin 4) :
    ∀ (l : List Allocation) (a : Allocation),
      (l.map (fun x => x.id)).Nodup → a ∈ l → a.id = i →
      sumFloorTier (l.filter (fun b => b.id != i)) t
        + (if a.tier == t then a.bandwidthFloorGBs else 0)
      = sumFloorTier l t := by
  intro l
  induction l with
  | nil => intro a _ ha _; cases ha
  | cons b l ih =>
    intro a hnd ha hai
    simp only [List.map_cons] at hnd
    have hnd' := List.nodup_cons.mp hnd
    by_cases hb : b.id = i
    · have hab : a = b := by
        rcases List.mem_cons.mp ha with rfl | hal
        · rfl
        · exact absurd (by rw [hb, ← hai]; exact List.mem_map_of_mem _ hal)
            hnd'.1
      subst hab
      rw [List.filter_cons_of_neg (by simpa using hb)]
      rw [List.filter_eq_self.mpr
        (fun x hx => by
          have : x.id ≠ i :=
            fun hxi => hnd'.1 (by rw [hb, ← hxi]; exact List.mem_map_of_mem _ hx)
          simpa using this)]
      rw [sumFloorTier_cons]
      omega
    · have hal : a ∈ l := by
        rcases List.mem_cons.mp ha with rfl | hal
        · exact absurd hai hb
        · exact hal
      rw [List.filter_cons_of_pos (by simpa using hb)]
      rw [sumFloorTier_cons, sumFloorTier_cons]
      have heq := ih a hnd'.2 hal hai
      omega

/-- Filtering out one resident id removes exactly its byte contribution. -/
theorem sumBytesTier_erase (i : ℕ) (t : Fin 4) :
    ∀ (l : List Allocation) (a : Allocation),
      (l.map (fun x => x.id)).Nodup → a ∈ l → a.id = i →
      sumBytesTier (l.filter (fun b => b.id != i)) t
        + (if a.tier == t then a.bytes else 0)
      = sumBytesTier l t := by
  intro l
  induction l with
  | nil => intro a _ ha _; cases ha
  | cons b l ih =>
    intro a hnd ha hai
    simp only [List.map_cons] at hnd
    have hnd' := List.nodup_cons.mp hnd
    by_cases hb : b.id = i
    · have hab : a = b := by
        rcases List.mem_cons.mp ha with rfl | hal
        · rfl
        · exact absurd (by rw [hb, ← hai]; exact List.mem_map_of_mem _ hal)
            hnd'.1
      subst hab
      rw [List.filter_cons_of_neg (by simpa using hb)]
      rw [List.filter_eq_self.mpr
        (fun x hx => by
          have : x.id ≠ i :=
            fun hxi => hnd'.1 (by rw [hb, ← hxi]; exact List.mem_map_of_mem _ hx)
          simpa using this)]
      rw [sumBytesTier_cons]
      omega
    · have hal : a ∈ l := by
        rcases List.mem_cons.mp ha with rfl | hal
        · exact absurd hai hb
        · exact hal
      rw [List.filter_cons_of_pos (by simpa using hb)]
      rw [sumBytesTier_cons, sumBytesTier_cons]
      have heq := ih a hnd'.2 hal hai
      omega

/-- A successful lookup returns a resident allocation carrying the id. -/
theorem findAlloc_mem {L : Ledger} {i : ℕ} {a : Allocation}
    (h : findAlloc L i = some a) : a ∈ L.allocs ∧ a.id = i := by
  unfold findAlloc at h
  refine ⟨List.mem_of_find?_eq_some h, ?_⟩
  have := List.find?_some h
  simpa using this

/-- After filtering an id out, lookups of that id fail. -/
theorem find_filter_ne (l : List Allocation) (i : ℕ) :
    (l.filter (fun b => b.id != i)).find? (fun a => a.id == i) = none := by
  apply List.find?_eq_none.mpr
  intro x hx
  have := (List.mem_filter.mp hx).2
  simpa using this

/-- A successful `Allocate` preserves ledger well-formedness. -/
theorem Allocate_ok_WF {L L' : Ledger} {bytes bwFloor n : ℕ} {tier : Fin 4}
    (hWF : LedgerWF L) (hok : Allocate L bytes tier bwFloor = .ok (L', n)) :
    LedgerWF L' := by
  obtain ⟨hnd, hlt, hcap, hbw⟩ := hWF
  unfold Allocate at hok
  split_ifs at hok with h1 h2
  simp only [Except.ok.injEq, Prod.mk.injEq] at hok
  obtain ⟨hr, -⟩ := hok
  subst hr
  refine ⟨?_, ?_, ?_, ?_⟩
  · simp only [List.map_cons]
    refine List.nodup_cons.mpr ⟨?_, hnd⟩
    intro hmem
    rcases List.mem_map.mp hmem with ⟨b, hb, hid⟩
    exact absurd (hid ▸ hlt b hb) (lt_irrefl _)
  · intro a ha
    rcases List.mem_cons.mp ha with rfl | ha
    · exact Nat.lt_succ_self _
    · exact Nat.lt_succ_of_lt (hlt a ha)
  · intro t
    show sumBytesTier (⟨L.nextId, bytes, tier, bwFloor⟩ :: L.allocs) t ≤
      (L.catalog t).capacityBytes
    simp only [sumBytesTier_cons]
    have hc := hcap t
    simp only [usedBytes] at hc h1
    by_cases ht : ((⟨L.nextId, bytes, tier, bwFloor⟩ : Allocation).tier == t)
    · have htt : tier = t := by simpa using ht
      subst htt
      simp only [if_pos ht]
      omega
    · simp only [if_neg ht]
      omega
  · intro t
    show sumFloorTier (⟨L.nextId, bytes, tier, bwFloor⟩ :: L.allocs) t ≤
      (L.catalog t).bandwidthCeilingGBs
    simp only [sumFloorTier_cons]
    have hc := hbw t
    simp only [committedFloor] at hc h2
    by_cases ht : ((⟨L.nextId, bytes, tier, bwFloor⟩ : Allocation).tier == t)
    · have htt : tier = t := by simpa using ht
      subst htt
      simp only [if_pos ht]
      omega
    · simp only [if_neg ht]
      omega

/-- A successful `Release` preserves ledger well-formedness. -/
theorem Release_ok_WF {L L' : Ledger} {i : ℕ}
    (hWF : LedgerWF L) (hok : Release L i = .ok L') : LedgerWF L' := by
  obtain ⟨hnd, hlt, hcap, hbw⟩ := hWF
  unfold Release at hok
  cases hfa : findAlloc L i with
  | none => rw [hfa] at hok; cases hok
  | some a =>
    rw [hfa] at hok
    simp only [Except.ok.injEq] at hok
    subst hok
    refine ⟨?_, ?_, ?_, ?_⟩
    · exact List.Nodup.sublist
        (List.Sublist.map _ (List.filter_sublist L.allocs)) hnd
    · intro x hx
      exact hlt x (List.mem_of_mem_filter hx)
    · intro t
      exact le_trans (sumBytesTier_filter_le L.allocs _ t) (hcap t)
    · intro t
      exact le_trans (sumFloorTier_filter_le L.allocs _ t) (hbw t)

/-- A successful `AdjustBandwidthFloor` preserves ledger well-formedness; the
admission check that excludes the old floor keeps the bandwidth invariant. -/
theorem Adjust_ok_WF {L L' : Ledger} {i nf : ℕ}
    (hWF : LedgerWF L) (hok : AdjustBandwidthFloor L i nf = .ok L') :
    LedgerWF L' := by
  obtain ⟨hnd, hlt, hcap, hbw⟩ := hWF
  unfold AdjustBandwidthFloor at hok
  cases hfa : findAlloc L i with
  | none => rw [hfa] at hok; cases hok
  | some a =>
    rw [hfa] at hok
    obtain ⟨hmem, hid⟩ := findAlloc_mem hfa
    replace hok : (if (L.catalog a.tier).bandwidthCeilingGBs
          < committedFloor L a.tier - a.bandwidthFloorGBs + nf then
        (Except.error FFMError.BANDWIDTH_INFEASIBLE : Except FFMError Ledger)
      else .ok { L with allocs := L.allocs.map (fun b =>
          if b.id == i then { b with bandwidthFloorGBs := nf } else b) })
        = .ok L' := hok
    split_ifs at hok with hguard
    simp only [Except.ok.injEq] at hok
    subst hok
    refine ⟨?_, ?_, ?_, ?_⟩
    · show (List.map (fun x => x.id) (L.allocs.map (fun b =>
          if b.id == i then { b with bandwidthFloorGBs := nf } else b))).Nodup
      rw [ids_map_update L.allocs i
        (fun b => { b with bandwidthFloorGBs := nf }) (fun b => rfl)]
      exact hnd
    · intro x hx
      rcases List.mem_map.mp hx with ⟨b, hb, rfl⟩
      by_cases hbi : b.id == i <;> simp only [hbi, if_true, if_false] <;>
        exact hlt b hb
    · intro t
      show sumBytesTier (L.allocs.map (fun b =>
          if b.id == i then { b with bandwidthFloorGBs := nf } else b)) t ≤
        (L.catalog t).capacityBytes
      rw [sumBytesTier_update_floor]
      exact hcap t
    · intro t
      show sumFloorTier (L.allocs.map (fun b =>
          if b.id == i then { b with bandwidthFloorGBs := nf } else b)) t ≤
        (L.catalog t).bandwidthCeilingGBs
      have heq := sumFloorTier_update_floor i nf t L.allocs a hnd hmem hid
      by_cases ht : a.tier == t
      · have htt : a.tier = t := by simpa using ht
        subst htt
        rw [if_pos ht, if_pos ht] at heq
        have hfl := mem_floor_le_sumFloorTier hmem
        simp only [committedFloor] at hguard
        omega
      · rw [if_neg ht, if_neg ht] at heq
        have := hbw t
        simp only [committedFloor] at this
        omega

/-- A successful `RequestTierMigration` preserves ledger well-formedness; the
destination-side admission checks keep both invariants through the move. -/
theorem Migrate_ok_WF {L L' : Ledger} {i : ℕ} {tg : Fin 4}
    (hWF : LedgerWF L) (hok : RequestTierMigration L i tg = .ok L') :
    LedgerWF L' := by
  obtain ⟨hnd, hlt, hcap, hbw⟩ := hWF
  unfold RequestTierMigration at hok
  cases hfa : findAlloc L i with
  | none => rw [hfa] at hok; cases hok
  | some a =>
    rw [hfa] at hok
    obtain ⟨hmem, hid⟩ := findAlloc_mem hfa
    replace hok : (if (L.catalog tg).capacityBytes < usedBytes L tg + a.bytes then
        (Except.error FFMError.CAPACITY_EXCEEDED : Except FFMError Ledger)
      else if (L.catalog tg).bandwidthCeilingGBs
          < committedFloor L tg + a.bandwidthFloorGBs then
        .error FFMError.BANDWIDTH_INFEASIBLE
      else .ok { L with allocs := L.allocs.map (fun b =>
          if b.id == i then { b with tier := tg } else b) }) = .ok L' := hok
    split_ifs at hok with h1 h2
    simp only [Except.ok.injEq] at hok
    subst hok
    refine ⟨?_, ?_, ?_, ?_⟩
    · show (List.map (fun x => x.id) (L.allocs.map (fun b =>
          if b.id == i then { b with tier := tg } else b))).Nodup
      rw [ids_map_update L.allocs i
        (fun b => { b with tier := tg }) (fun b => rfl)]
      exact hnd
    · intro x hx
      rcases List.mem_map.mp hx with ⟨b, hb, rfl⟩
      by_cases hbi : b.id == i <;> simp only [hbi, if_true, if_false] <;>
        exact hlt b hb
    · intro t
      show sumBytesTier (L.allocs.map (fun b =>
          if b.id == i then { b with tier := tg } else b)) t ≤
        (L.catalog t).capacityBytes
      have heq := sumBytesTier_update_tier i tg t L.allocs a hnd hmem hid
      have hc := hcap t
      simp only [usedBytes] at hc h1
      by_cases ht : a.tier == t <;> by_cases htg : tg == t
      · rw [if_pos ht, if_pos htg] at heq
        omega
      · rw [if_pos ht, if_neg htg] at heq
        omega
      · have htt : tg = t := by simpa using htg
        subst htt
        rw [if_neg ht, if_pos htg] at heq
        omega
      · rw [if_neg ht, if_neg htg] at heq
        omega
    · intro t
      show sumFloorTier (L.allocs.map (fun b =>
          if b.id == i then { b with tier := tg } else b)) t ≤
        (L.catalog t).bandwidthCeilingGBs
      have heq := sumFloorTier_update_tier i tg t L.allocs a hnd hmem hid
      have hc := hbw t
      simp only [committedFloor] at hc h2
      by_cases ht : a.tier == t <;> by_cases htg : tg == t
      · rw [if_pos ht, if_pos htg] at heq
        omega
      · rw [if_pos ht, if_neg htg] at heq
        omega
      · have htt : tg = t := by simpa using htg
        subst htt
        rw [if_neg ht, if_pos htg] at heq
        omega
      · rw [if_neg ht, if_neg htg] at heq
        omega

/-- Well-formedness is preserved at every observable point of `Allocate`,
including failing calls (which leave the ledger unchanged). -/
theorem afterAllocate_WF (L : Ledger) (bytes : ℕ) (tier : Fin 4) (bwFloor : ℕ)
    (hWF : LedgerWF L) : LedgerWF (afterAllocate L bytes tier bwFloor) := by
  unfold afterAllocate
  cases hok : Allocate L bytes tier bwFloor with
  | error e => exact hWF
  | ok p =>
    obtain ⟨L', n⟩ := p
    exact Allocate_ok_WF hWF hok

/-- Well-formedness is preserved at every observable point of `Release`. -/
theorem afterRelease_WF (L : Ledger) (i : ℕ) (hWF : LedgerWF L) :
    LedgerWF (afterRelease L i) := by
  unfold afterRelease
  cases hok : Release L i with
  | error e => exact hWF
  | ok L' => exact Release_ok_WF hWF hok

/-- Well-formedness is preserved at every observable point of
`AdjustBandwidthFloor`. -/
theorem afterAdjust_WF (L : Ledger) (i nf : ℕ) (hWF : LedgerWF L) :
    LedgerWF (afterAdjust L i nf) := by
  unfold afterAdjust
  cases hok : AdjustBandwidthFloor L i nf with
  | error e => exact hWF
  | ok L' => exact Adjust_ok_WF hWF hok

/-- Well-formedness is preserved at every observable point of
`RequestTierMigration`. -/
theorem afterMigration_WF (L : Ledger) (i : ℕ) (tg : Fin 4) (hWF : LedgerWF L) :
    LedgerWF (afterMigration L i tg) := by
  unfold afterMigration
  cases hok : RequestTierMigration L i tg with
  | error e => exact hWF
  | ok L' => exact Migrate_ok_WF hWF hok

/-- C1: for every well-formed ledger, the bandwidth-conservation invariant
holds immediately before and immediately after every `Allocate`,
`AdjustBandwidthFloor`, `RequestTierMigration` and `Release` call, including
failing calls; and in Scenario A with `capacity_bandwidth(T0) = 500` GB/s, a
16 GiB / 500 GB/s grant succeeds while a subsequent 16 GiB / 600 GB/s request
fails `BANDWIDTH_INFEASIBLE`. -/
theorem bandwidth_conservation_invariant :
    (∀ (L : Ledger) (bytes : ℕ) (tier : Fin 4) (bwFloor : ℕ), LedgerWF L →
      bwInv L ∧ bwInv (afterAllocate L bytes tier bwFloor)) ∧
    (∀ (L : Ledger) (i nf : ℕ), LedgerWF L →
      bwInv L ∧ bwInv (afterAdjust L i nf)) ∧
    (∀ (L : Ledger) (i : ℕ) (tg : Fin 4), LedgerWF L →
      bwInv L ∧ bwInv (afterMigration L i tg)) ∧
    (∀ (L : Ledger) (i : ℕ), LedgerWF L →
      bwInv L ∧ bwInv (afterRelease L i)) ∧
    (Allocate (emptyLedger catalogA) 17179869184 0 500 = .ok (ledgerA1, 0) ∧
      Allocate ledgerA1 17179869184 0 600 = .error .BANDWIDTH_INFEASIBLE) :=
  ⟨fun L bytes tier bwFloor hWF =>
      ⟨hWF.2.2.2, (afterAllocate_WF L bytes tier bwFloor hWF).2.2.2⟩,
    fun L i nf hWF => ⟨hWF.2.2.2, (afterAdjust_WF L i nf hWF).2.2.2⟩,
    fun L i tg hWF => ⟨hWF.2.2.2, (afterMigration_WF L i tg hWF).2.2.2⟩,
    fun L i hWF => ⟨hWF.2.2.2, (afterRelease_WF L i hWF).2.2.2⟩,
    rfl, rfl⟩

/-- Witness for C1: the invariant around a concrete `Allocate` call on the
Scenario A catalog. -/
theorem bandwidth_conservation_invariant_witness :
    bwInv (emptyLedger catalogA) ∧
    bwInv (afterAllocate (emptyLedger catalogA) 17179869184 0 500) :=
  bandwidth_conservation_invariant.1 (emptyLedger catalogA) 17179869184 0 500
    (by decide)

/-- C2: `Allocate` fails `CAPACITY_EXCEEDED` exactly when the requested size
exceeds the tier's remaining free bytes; requesting `capacity + 1` bytes on
any tier of any catalog always fails `CAPACITY_EXCEEDED`, while requesting
exactly `capacity` bytes on an empty ledger succeeds (with any admissible
floor). -/
theorem allocate_admission_boundary :
    (∀ (L : Ledger) (bytes : ℕ) (tier : Fin 4) (bwFloor : ℕ), LedgerWF L →
      (Allocate L bytes tier bwFloor = .error .CAPACITY_EXCEEDED ↔
        (L.catalog tier).capacityBytes - usedBytes L tier < bytes)) ∧
    (∀ (cat : Fin 4 → TierSpec) (tier : Fin 4) (bwFloor : ℕ),
      Allocate (emptyLedger cat) ((cat tier).capacityBytes + 1) tier bwFloor =
        .error .CAPACITY_EXCEEDED) ∧
    (∀ (cat : Fin 4 → TierSpec) (tier : Fin 4) (bwFloor : ℕ),
      bwFloor ≤ (cat tier).bandwidthCeilingGBs →
      ∃ L' n, Allocate (emptyLedger cat) (cat tier).capacityBytes tier bwFloor =
        .ok (L', n)) := by
  refine ⟨?_, ?_, ?_⟩
  · intro L bytes tier bwFloor hWF
    have hc := hWF.2.2.1 tier
    unfold Allocate
    split_ifs with h1 h2
    · simp only [true_iff]
      omega
    · constructor
      · intro hh; cases hh
      · intro hh; omega
    · constructor
      · intro hh; cases hh
      · intro hh; omega
  · intro cat tier bwFloor
    have h0 : usedBytes (emptyLedger cat) tier = 0 := rfl
    unfold Allocate
    rw [if_pos (show ((emptyLedger cat).catalog tier).capacityBytes <
      usedBytes (emptyLedger cat) tier + ((cat tier).capacityBytes + 1) from
      by rw [h0, show (emptyLedger cat).catalog = cat from rfl]; omega)]
  · intro cat tier bwFloor hf
    have h0 : usedBytes (emptyLedger cat) tier = 0 := rfl
    have h1 : committedFloor (emptyLedger cat) tier = 0 := rfl
    unfold Allocate
    rw [if_neg (show ¬ ((emptyLedger cat).catalog tier).capacityBytes <
        usedBytes (emptyLedger cat) tier + (cat tier).capacityBytes from
        by rw [h0, show (emptyLedger cat).catalog = cat from rfl]; omega),
      if_neg (show ¬ ((emptyLedger cat).catalog tier).bandwidthCeilingGBs <
        committedFloor (emptyLedger cat) tier + bwFloor from
        by rw [h1, show (emptyLedger cat).catalog = cat from rfl]; omega)]
    exact ⟨_, _, rfl⟩

/-- Witness for C2: the boundary facts at the Scenario A catalog. -/
theorem allocate_admission_boundary_witness :
    (Allocate (emptyLedger catalogA) 17179869184 0 500 =
        .error .CAPACITY_EXCEEDED ↔
      (catalogA 0).capacityBytes - usedBytes (emptyLedger catalogA) 0 <
        17179869184) ∧
    ∃ L' n, Allocate (emptyLedger catalogA) (catalogA 0).capacityBytes 0 450 =
      .ok (L', n) :=
  ⟨allocate_admission_boundary.1 (emptyLedger catalogA) 17179869184 0 500
      (by decide),
    allocate_admission_boundary.2.2 catalogA 0 450 (by decide)⟩

/-- C7: a resident id is released successfully exactly once — the first
`Release` succeeds and immediately frees the allocation's bytes and its
committed bandwidth floor, and a second `Release` of the same id returns
`NOT_FOUND` and leaves the ledger unchanged (nothing is freed twice). -/
theorem release_once_then_not_found (L : Ledger) (i : ℕ) (a : Allocation)
    (hWF : LedgerWF L) (hfa : findAlloc L i = some a) :
    ∃ L', Release L i = .ok L' ∧
      usedBytes L' a.tier + a.bytes = usedBytes L a.tier ∧
      committedFloor L' a.tier + a.bandwidthFloorGBs = committedFloor L a.tier ∧
      Release L' i = .error .NOT_FOUND ∧
      afterRelease L' i = L' := by
  obtain ⟨hmem, hid⟩ := findAlloc_mem hfa
  have hrel2 : Release { L with allocs := L.allocs.filter (fun b => b.id != i) } i
      = .error .NOT_FOUND := by
    unfold Release findAlloc
    rw [find_filter_ne]
  refine ⟨{ L with allocs := L.allocs.filter (fun b => b.id != i) }, ?_, ?_, ?_,
    hrel2, ?_⟩
  · unfold Release
    rw [hfa]
  · have h := sumBytesTier_erase i a.tier L.allocs a hWF.1 hmem hid
    rw [if_pos (by simp)] at h
    exact h
  · have h := sumFloorTier_erase i a.tier L.allocs a hWF.1 hmem hid
    rw [if_pos (by simp)] at h
    exact h
  · unfold afterRelease
    rw [hrel2]

/-- Witness for C7: releasing the Scenario A grant once succeeds and frees
its bytes and floor; the second release fails `NOT_FOUND`. -/
theorem release_once_then_not_found_witness :
    ∃ L', Release ledgerA1 0 = .ok L' ∧
      usedBytes L' 0 + 17179869184 = usedBytes ledgerA1 0 ∧
      committedFloor L' 0 + 500 = committedFloor ledgerA1 0 ∧
      Release L' 0 = .error .NOT_FOUND ∧
      afterRelease L' 0 = L' :=
  release_once_then_not_found ledgerA1 0 ⟨0, 17179869184, 0, 500⟩
    (by decide) rfl

end Corridor
